import Mathlib

/-!
Shallow embedding of the reconstruction-session pipeline of the
3d-photogrammetry repository (src/model_processor.py, src/colmap_wrapper.py).

Geometry is modelled over exact rationals (the Python code uses IEEE floats;
every claim checked here concerns order/.. relations and record counts that
are preserved by the exact model).  File contents (PLY and OBJ files) are
modelled structurally: a file is the list of parsed records its lines carry,
in order, rather than raw text.  Filesystem facts (which files exist, whether
a path is readable) are inputs to the model.
-/

namespace Photogrammetry

/-- A 3-component coordinate vector (x, y, z). -/
abbrev Vec3 := ℚ × ℚ × ℚ

/-- Bounding box as produced by `ModelProcessor.calculate_bounding_box`
(model_processor.py lines 112-136): componentwise min, max and midpoint. -/
structure BoundingBox where
  bmin : Vec3
  bmax : Vec3
  center : Vec3
  deriving DecidableEq

/-- `ModelProcessor.calculate_bounding_box` (model_processor.py 112-136).
Empty vertex list returns the all-zero box; otherwise componentwise
min/max over all vertices and `center = (min+max)/2` on each axis.
`min(v[i] for v in vertices)` is modelled as a fold of `min` over the list
seeded with the first element's component. -/
def calculate_bounding_box (vertices : List Vec3) : BoundingBox :=
  match vertices with
  | [] => ⟨(0, 0, 0), (0, 0, 0), (0, 0, 0)⟩
  | v :: vs =>
    let min_x := (vs.map (fun u => u.1)).foldl min v.1
    let max_x := (vs.map (fun u => u.1)).foldl max v.1
    let min_y := (vs.map (fun u => u.2.1)).foldl min v.2.1
    let max_y := (vs.map (fun u => u.2.1)).foldl max v.2.1
    let min_z := (vs.map (fun u => u.2.2)).foldl min v.2.2
    let max_z := (vs.map (fun u => u.2.2)).foldl max v.2.2
    ⟨(min_x, min_y, min_z), (max_x, max_y, max_z),
     ((min_x + max_x) / 2, (min_y + max_y) / 2, (min_z + max_z) / 2)⟩

/-- Python `round(x, 6)` used as the vertex-deduplication key in
`clean_mesh` (model_processor.py line 295): rounding to 6 decimal places.
(Python rounds halves to even; on the exact-rational model we use the
standard `round`, which only differs on exact half-multiples of 10⁻⁶ —
immaterial for the deduplication of identical coordinates.) -/
def round6 (q : ℚ) : ℚ := ((round (q * 1000000) : ℤ) : ℚ) / 1000000

/-- An OBJ mesh, modelled as the parsed records of its lines: the `v` lines
(coordinates) in order, and the `f` lines (1-based vertex indices, as written
in the file) in order. -/
structure ObjMesh where
  vertices : List Vec3
  faces : List (ℤ × ℤ × ℤ)
  deriving DecidableEq

/-- One pass of the vertex-deduplication loop of `clean_mesh`
(model_processor.py 289-298): `st.1` is the `vertices` list built so far,
`st.2` the `vertex_map` from rounded coordinate key to new index.
A vertex whose rounded key is already present is skipped. -/
def clean_vertex_step (st : List Vec3 × List (Vec3 × ℕ)) (v : Vec3) :
    List Vec3 × List (Vec3 × ℕ) :=
  let key : Vec3 := (round6 v.1, round6 v.2.1, round6 v.2.2)
  if st.2.any (fun kv => kv.1 = key) then st
  else (st.1 ++ [v], st.2 ++ [(key, st.1.length)])

/-- `ModelProcessor.clean_mesh` (model_processor.py 264-337), on the parsed
records of the OBJ file.  Vertices are deduplicated by rounded coordinate
key.  Each face line's indices are converted to 0-based
(`int(part.split('/')[0]) - 1`, line 308), the face is kept iff the three
0-based indices are pairwise distinct (lines 312-314), and kept faces are
written back 1-based (line 330).  Note the source never applies `vertex_map`
to the face indices: faces keep their original indices. -/
def clean_mesh (m : ObjMesh) : ObjMesh :=
  let st := m.vertices.foldl clean_vertex_step ([], [])
  let faces := m.faces.filterMap (fun f =>
    let v1 := f.1 - 1
    let v2 := f.2.1 - 1
    let v3 := f.2.2 - 1
    if v1 ≠ v2 ∧ v2 ≠ v3 ∧ v1 ≠ v3 then some (v1 + 1, v2 + 1, v3 + 1) else none)
  ⟨st.1, faces⟩

/-- A parsed PLY file: header fields read by `read_ply_header`
(model_processor.py 75-110) plus the body records following `end_header`.
A vertex record carries its three float fields and the remaining integer
fields (colors, if declared); a face record carries the leading vertex-count
token and the following integer indices. -/
structure PlyFile where
  format : String
  vertex_count : ℕ
  face_count : ℕ
  has_colors : Bool
  vertexRecs : List (Vec3 × List ℕ)
  faceRecs : List (ℕ × List ℤ)

/-- Result of `convert_ply_to_obj`: the OBJ records written plus the
`ModelMetadata` fields the claims refer to (model_processor.py 211-256). -/
structure ObjResult where
  vertexLines : List (Vec3 × Option Vec3)
  faceLines : List (ℤ × ℤ × ℤ)
  boundingBox : BoundingBox
  vertex_count : ℕ
  face_count : ℕ
  has_colors : Bool
  has_normals : Bool

/-- `ModelProcessor.convert_ply_to_obj` (model_processor.py 138-262).
For the ascii format it reads `vertex_count` vertex records (the first three
fields as coordinates; colors `r g b` scaled by 1/255 when the header
declared colors and the record has at least 6 fields, lines 181-192) and
`face_count` face records, keeping a face iff its leading count token is `3`
(line 206) and converting its indices to 1-based (line 208).  A non-ascii
format yields no vertices and no faces (lines 194-198 and 203).  Each kept
vertex is written as one `v` line with its color attached when the color
list is long enough (lines 221-226); each kept face as one `f` line.
The bounding box is `calculate_bounding_box` over the parsed vertices. -/
def convert_ply_to_obj (f : PlyFile) : ObjResult :=
  let vrecs := f.vertexRecs.take f.vertex_count
  let vertices : List Vec3 :=
    if f.format = "ascii" then vrecs.map (fun r => r.1) else []
  let colors : List Vec3 :=
    if f.format = "ascii" ∧ f.has_colors then
      vrecs.filterMap (fun r =>
        match r.2 with
        | a :: b :: c :: _ => some ((a : ℚ) / 255, (b : ℚ) / 255, (c : ℚ) / 255)
        | _ => none)
    else []
  let faces : List (ℤ × ℤ × ℤ) :=
    if f.format = "ascii" then
      (f.faceRecs.take f.face_count).filterMap (fun fr =>
        if fr.1 = 3 then
          match fr.2 with
          | a :: b :: c :: _ => some (a + 1, b + 1, c + 1)
          | _ => none
        else none)
    else []
  { vertexLines := vertices.enum.map (fun iv => (iv.2, colors[iv.1]?))
    faceLines := faces
    boundingBox := calculate_bounding_box vertices
    vertex_count := vertices.length
    face_count := faces.length
    has_colors := colors.length > 0
    has_normals := false }

/-! ### Session pipeline (src/colmap_wrapper.py)

Wall time is modelled as the number of 0.1-second poll ticks; every read of a
session's cancellation flag advances a global tick counter, and the flag is
the monotone predicate `cancelTick ≤ tick` (once signalled it stays
signalled).  An external command is a `CmdSpec`: how many poll iterations the
process stays alive, its exit code, and its captured standard streams.
Command strings in error messages are abbreviated to the engine subcommand
name (the source appends the full argument list, which only adds path text).
-/

/-- `ProcessingStatus` (colmap_wrapper.py 45-51). -/
inductive PStatus
  | pending
  | running
  | completed
  | error
  | cancelled
  deriving DecidableEq

/-- `ProcessingStage` (colmap_wrapper.py 32-42). -/
inductive PStage
  | initialization
  | feature_extraction
  | feature_matching
  | sparse_reconstruction
  | dense_reconstruction
  | mesh_generation
  | completed
  | error
  | cancelled
  deriving DecidableEq

/-- One entry of a session's `output_files` list (colmap_wrapper.py 407). -/
structure OutputFile where
  otype : String
  path : String
  deriving DecidableEq

/-- `ColmapProgress` (colmap_wrapper.py 54-69); `end_time_set` models
whether `end_time` has been assigned. -/
structure ColmapProgress where
  sessionId : String
  stage : PStage
  status : PStatus
  progress_percent : ℚ
  message : String
  error_message : Option String
  output_files : List OutputFile
  end_time_set : Bool
  deriving DecidableEq

/-- `ColmapProcessor._update_progress` (colmap_wrapper.py 665-680):
`error_message` and `output_files` are only overwritten when the new value
is truthy; `end_time` is set when the new status is terminal. -/
def update_progress (p : ColmapProgress) (stage : PStage) (status : PStatus)
    (percent : ℚ) (message : String) (errMsg : Option String)
    (outFiles : List OutputFile) : ColmapProgress :=
  { p with
    stage := stage
    status := status
    progress_percent := percent
    message := message
    error_message :=
      match errMsg with
      | some m => if m = "" then p.error_message else some m
      | none => p.error_message
    output_files := if outFiles.isEmpty then p.output_files else outFiles
    end_time_set := p.end_time_set ||
      (status = PStatus.completed ∨ status = PStatus.error ∨ status = PStatus.cancelled) }

/-- The processing configuration fields of `ColmapProcessor.__init__`
(colmap_wrapper.py 88-127) that the pipeline and the archive metadata use. -/
structure Config where
  enable_dense_reconstruction : Bool
  enable_meshing : Bool
  max_image_size : ℕ
  matcher_type : String
  use_gpu : Bool
  gpu_indices : String
  enable_dsp_sift : Bool
  enable_guided_matching : Bool
  enable_geometric_consistency : Bool
  deriving DecidableEq

/-- One external command invocation, as the model sees it: number of poll
iterations the process stays alive, exit code, captured stdout/stderr. -/
structure CmdSpec where
  duration : ℕ
  exitCode : ℕ
  stdoutS : String
  stderrS : String
  deriving DecidableEq

/-- The per-session environment facts the worker run depends on: the image
list length, when (in flag-read ticks) the cancellation token becomes
signalled (`none` = never), the behaviour of each spawned command in order,
and which output files the external engine actually produced. -/
structure SessEnv where
  image_count : ℕ
  cancelTick : Option ℕ
  cmds : List CmdSpec
  sparse_model_dir_exists : Bool
  sparse_ply_file_exists : Bool
  fused_ply_exists : Bool
  mesh_ply_exists : Bool
  archive_fails : Bool
  time_now : String

/-- Reading the session's cancellation flag at global tick `t`:
`threading.Event.is_set`, monotone in `t`. -/
def flagAt (cT : Option ℕ) (t : ℕ) : Bool :=
  match cT with
  | none => false
  | some c => decide (c ≤ t)

/-- Python `str.strip()`: drop leading and trailing whitespace. -/
def pyStrip (s : String) : String :=
  ⟨((s.data.dropWhile Char.isWhitespace).reverse.dropWhile Char.isWhitespace).reverse⟩

/-- Python `s[-n:]`: the last `n` characters (whole string when shorter). -/
def lastN (n : ℕ) (s : String) : String :=
  ⟨s.data.drop (s.data.length - n)⟩

/-- `elapsed:.1f` where elapsed = ticks × 0.1 s. -/
def fmt_elapsed (ticks : ℕ) : String :=
  toString (ticks / 10) ++ "." ++ toString (ticks % 10)

/-- The error text built on command timeout (colmap_wrapper.py 550-556):
the budget in minutes, the last 1000 characters of stripped stderr/stdout
when non-empty, the command, and a fixed hint. -/
def timeout_error_msg (timeoutMinutes : ℕ) (stdoutS stderrS cmdStr : String) : String :=
  "COLMAP command timed out after " ++ (toString timeoutMinutes ++ " minutes")
    ++ (if stderrS ≠ "" then "\nPartial STDERR: " ++ lastN 1000 (pyStrip stderrS) else "")
    ++ (if stdoutS ≠ "" then "\nPartial STDOUT: " ++ lastN 1000 (pyStrip stdoutS) else "")
    ++ ("\nCommand: " ++ cmdStr)
    ++ "\nThis may indicate challenging images with insufficient overlap or too many features."

/-- The error text built on nonzero exit (colmap_wrapper.py 571-576). -/
def fail_error_msg (returncode elapsedTicks : ℕ) (stdoutS stderrS cmdStr : String) : String :=
  "COLMAP command failed with return code " ++ toString returncode ++ " after "
    ++ fmt_elapsed elapsedTicks ++ "s"
    ++ (if stderrS ≠ "" then "\nSTDERR: " ++ pyStrip stderrS else "")
    ++ (if stdoutS ≠ "" then "\nSTDOUT: " ++ pyStrip stdoutS else "")
    ++ ("\nCommand: " ++ cmdStr)

/-- Why the poll loop of `_run_colmap_command` stopped early. -/
inductive CmdStop
  | byCancel
  | byTimeout
  deriving DecidableEq

/-- The poll loop of `_run_colmap_command` (colmap_wrapper.py 531-564):
while the process is alive (`rem` iterations left), each iteration first
reads the cancellation flag (advancing the tick clock), then raises timeout
once `0.1·k` seconds exceed the minute budget, i.e. when `timeoutTicks < k`.
Returns the new clock and the stop reason, if any. -/
def run_poll_loop (cT : Option ℕ) (timeoutTicks : ℕ) :
    (rem k clock : ℕ) → ℕ × Option CmdStop
  | 0, _, clock => (clock, none)
  | rem + 1, k, clock =>
    let c := clock + 1
    if flagAt cT c then (c, some CmdStop.byCancel)
    else if timeoutTicks < k then (c, some CmdStop.byTimeout)
    else run_poll_loop cT timeoutTicks rem (k + 1) c

/-- Outcome of one `_run_colmap_command` call.  The source signals the three
failure outcomes by raising `ColmapError` from three distinct sites
(cancellation line 535, timeout line 558, nonzero exit line 579); the model
keeps them as distinct constructors carrying the raised message. -/
inductive RunOutcome
  | success
  | cancelledByUser
  | timedOut (msg : String)
  | failed (msg : String)
  deriving DecidableEq

/-- `ColmapProcessor._run_colmap_command` (colmap_wrapper.py 517-593). -/
def run_colmap_command (cT : Option ℕ) (spec : CmdSpec) (cmdStr : String)
    (timeoutMinutes : ℕ) (clock : ℕ) : ℕ × RunOutcome :=
  match run_poll_loop cT (600 * timeoutMinutes) spec.duration 0 clock with
  | (c, some CmdStop.byCancel) => (c, RunOutcome.cancelledByUser)
  | (c, some CmdStop.byTimeout) =>
    (c, RunOutcome.timedOut (timeout_error_msg timeoutMinutes spec.stdoutS spec.stderrS cmdStr))
  | (c, none) =>
    if spec.exitCode ≠ 0 then
      (c, RunOutcome.failed
        (fail_error_msg spec.exitCode spec.duration spec.stdoutS spec.stderrS cmdStr))
    else (c, RunOutcome.success)

/-- A file entry of the model archive, or its single metadata document
(colmap_wrapper.py 605-647). -/
structure ArchCand where
  path : String
  ftype : String
  file_present : Bool
  readable : Bool
  deriving DecidableEq

/-- An entry written into the archive: either one output file under
`<type>/<filename>`, or the `metadata.json` document carrying session id,
creation time, the full candidate list and the processing parameters. -/
inductive ArchEntry
  | file (arcname : String)
  | metadataDoc (sessionId : String) (createdAt : String)
      (outputFiles : List ArchCand) (params : Config)
  deriving DecidableEq

/-- `ColmapProcessor._create_model_archive` (colmap_wrapper.py 595-663).
`none`: no archive is created at all (empty candidate list, line 601-603).
Candidates that are missing or whose write fails are skipped with a warning
(lines 608-619).  If no file could be added the function returns before
writing metadata (lines 621-623); otherwise exactly one metadata document is
appended after the file entries (lines 625-647). -/
def create_model_archive (sid : String) (cfg : Config) (createdAt : String)
    (output_files : List ArchCand) : Option (List ArchEntry) :=
  if output_files.isEmpty then none
  else
    let added := output_files.filter (fun f => f.file_present && f.readable)
    let entries := added.map (fun f => ArchEntry.file (f.ftype ++ "/" ++ f.path))
    if added.isEmpty then some entries
    else some (entries ++ [ArchEntry.metadataDoc sid createdAt output_files cfg])

/-- Whether an archive entry is the metadata document. -/
def is_metadata : ArchEntry → Bool
  | ArchEntry.metadataDoc _ _ _ _ => true
  | _ => false

/-- Number of metadata documents among the archive entries. -/
def count_metadata (l : List ArchEntry) : ℕ :=
  (l.filter is_metadata).length

/-- State of one worker run of `_process_session`: the global tick clock,
the commands not yet spawned, the names of commands spawned so far, the
session's progress record, the progress updates made so far (newest first),
and the archive produced (if any). -/
structure RunS where
  clock : ℕ
  pending : List CmdSpec
  commandsRun : List String
  prog : ColmapProgress
  rev : List (PStatus × ℚ)
  archive : Option (List ArchEntry)

/-- The sequence of progress updates made during the run, oldest first. -/
def RunS.trace (s : RunS) : List (PStatus × ℚ) :=
  s.rev.reverse

/-- Apply `_update_progress` inside a worker run, recording the update. -/
def updS (s : RunS) (stage : PStage) (status : PStatus) (percent : ℚ)
    (message : String) (errMsg : Option String) (outFiles : List OutputFile) : RunS :=
  { s with
    prog := update_progress s.prog stage status percent message errMsg outFiles
    rev := (status, percent) :: s.rev }

/-- `ColmapProcessor._handle_cancellation` (colmap_wrapper.py 682-686). -/
def handle_cancellation (s : RunS) : RunS :=
  updS s PStage.cancelled PStatus.cancelled 0 "Processing cancelled by user" none []

/-- The `except` handler at the end of `_process_session`
(colmap_wrapper.py 504-515): empty/whitespace messages fall back to a fixed
text, the status becomes Error and the percent is reset to 0. -/
def error_update (s : RunS) (msg : String) : RunS :=
  let m := if pyStrip msg = "" then "Unknown COLMAP processing error" else msg
  updS s PStage.error PStatus.error 0 ("Processing failed: " ++ m) (some m) []

/-- One explicit cancellation checkpoint of `_process_session`
(e.g. colmap_wrapper.py 340-342): read the flag; if set, apply
`_handle_cancellation` and stop. -/
def check_cancel (cT : Option ℕ) (s : RunS) : Except RunS RunS :=
  let c := s.clock + 1
  if flagAt cT c then Except.error (handle_cancellation { s with clock := c })
  else Except.ok { s with clock := c }

/-- The image-copy loop of `_process_session` (colmap_wrapper.py 290-304):
for each image, read the cancellation flag (stop via `_handle_cancellation`
if set), then report progress `5 + (i/total)·5`. -/
def copy_images_loop (cT : Option ℕ) (total : ℕ) :
    (i rem : ℕ) → RunS → Except RunS RunS
  | _, 0, s => Except.ok s
  | i, rem + 1, s =>
    let c := s.clock + 1
    if flagAt cT c then Except.error (handle_cancellation { s with clock := c })
    else
      let s2 := updS { s with clock := c } PStage.initialization PStatus.running
        (5 + ((i : ℚ) / (total : ℚ)) * 5)
        ("Copied " ++ toString (i + 1) ++ "/" ++ toString total ++ " images") none []
      copy_images_loop cT total (i + 1) rem s2

/-- Spawn the next pending command and run `_run_colmap_command` on it; a
raised `ColmapError` (cancellation, timeout or failure) propagates to the
outer handler, i.e. ends the run through `error_update`. -/
def run_cmd_step (cT : Option ℕ) (name : String) (timeoutMinutes : ℕ)
    (s : RunS) : Except RunS RunS :=
  let spec := s.pending.headD ⟨0, 0, "", ""⟩
  let s1 := { s with pending := s.pending.tail, commandsRun := s.commandsRun ++ [name] }
  match run_colmap_command cT spec name timeoutMinutes s1.clock with
  | (c, RunOutcome.success) => Except.ok { s1 with clock := c }
  | (c, RunOutcome.cancelledByUser) =>
    Except.error (error_update { s1 with clock := c } "Processing cancelled by user")
  | (c, RunOutcome.timedOut m) => Except.error (error_update { s1 with clock := c } m)
  | (c, RunOutcome.failed m) => Except.error (error_update { s1 with clock := c } m)

/-- One step of the `_process_session` body. -/
inductive StepI
  | upd (stage : PStage) (percent : ℚ) (message : String)
  | copy (n : ℕ)
  | cmd (name : String) (timeoutMinutes : ℕ)
  | chk

/-- The straight-line body of `_process_session` (colmap_wrapper.py
274-500) as the ordered list of its progress updates, cancellation
checkpoints and external commands; the optional blocks mirror lines 399
(`sparse/0` exists), 410 (dense enabled) and 465 (meshing AND dense). -/
def stepsFor (cfg : Config) (env : SessEnv) : List StepI :=
  [ StepI.upd PStage.initialization 5 "Setting up workspace and copying images",
    StepI.copy env.image_count,
    StepI.upd PStage.feature_extraction 15 "Extracting features from images",
    StepI.cmd "feature_extractor" 30,
    StepI.chk,
    StepI.upd PStage.feature_matching 35 "Matching features between images",
    StepI.cmd (if cfg.matcher_type = "sequential" then "sequential_matcher"
               else "exhaustive_matcher") 10,
    StepI.chk,
    StepI.upd PStage.sparse_reconstruction 55 "Performing sparse 3D reconstruction",
    StepI.cmd "mapper" 20,
    StepI.chk ]
  ++ (if env.sparse_model_dir_exists then [StepI.cmd "model_converter" 30] else [])
  ++ (if cfg.enable_dense_reconstruction then
        [StepI.chk,
         StepI.upd PStage.dense_reconstruction 75 "Performing dense reconstruction",
         StepI.cmd "image_undistorter" 30,
         StepI.cmd "patch_match_stereo" 30,
         StepI.cmd "stereo_fusion" 30]
      else [])
  ++ (if cfg.enable_meshing && cfg.enable_dense_reconstruction then
        [StepI.chk,
         StepI.upd PStage.mesh_generation 90 "Generating mesh from dense point cloud",
         StepI.cmd "poisson_mesher" 30]
      else [])

/-- Execute one step of the session body. -/
def stepExec (cT : Option ℕ) : StepI → RunS → Except RunS RunS
  | StepI.upd st q msg, s => Except.ok (updS s st PStatus.running q msg none [])
  | StepI.copy n, s => copy_images_loop cT n 0 n s
  | StepI.cmd name m, s => run_cmd_step cT name m s
  | StepI.chk, s => check_cancel cT s

/-- Run the session body steps in order, stopping at the first step that
terminates the session (cancellation checkpoint or raised `ColmapError`). -/
def runSteps (cT : Option ℕ) : List StepI → RunS → Except RunS RunS
  | [], s => Except.ok s
  | st :: rest, s =>
    match stepExec cT st s with
    | Except.error s1 => Except.error s1
    | Except.ok s1 => runSteps cT rest s1

/-- The `output_files` list built by `_process_session` (colmap_wrapper.py
407, 460-462, 484-486): the sparse model entry unconditionally, the dense
point cloud when dense reconstruction ran and `fused.ply` exists, the mesh
when the meshing block ran and `mesh.ply` exists. -/
def output_files_for (cfg : Config) (env : SessEnv) : List OutputFile :=
  [⟨"sparse_model", "sparse_model.ply"⟩]
  ++ (if cfg.enable_dense_reconstruction && env.fused_ply_exists then
        [⟨"dense_pointcloud", "fused.ply"⟩] else [])
  ++ (if cfg.enable_meshing && cfg.enable_dense_reconstruction && env.mesh_ply_exists then
        [⟨"mesh", "mesh.ply"⟩] else [])

/-- The archive candidates corresponding to `output_files`: the dense and
mesh entries were filesystem-checked before being listed, the sparse entry
was not (colmap_wrapper.py 407), so its presence is an environment fact. -/
def archive_cands (cfg : Config) (env : SessEnv) : List ArchCand :=
  [⟨"sparse_model.ply", "sparse_model", env.sparse_ply_file_exists, true⟩]
  ++ (if cfg.enable_dense_reconstruction && env.fused_ply_exists then
        [⟨"fused.ply", "dense_pointcloud", true, true⟩] else [])
  ++ (if cfg.enable_meshing && cfg.enable_dense_reconstruction && env.mesh_ply_exists then
        [⟨"mesh.ply", "mesh", true, true⟩] else [])

/-- The progress record created by `process_images` at submission
(colmap_wrapper.py 214-221). -/
def init_progress (sid : String) : ColmapProgress :=
  { sessionId := sid
    stage := PStage.initialization
    status := PStatus.pending
    progress_percent := 0
    message := "Initializing COLMAP processing"
    error_message := none
    output_files := []
    end_time_set := false }

/-- Initial worker-run state for a freshly submitted session. -/
def init_run (env : SessEnv) (sid : String) : RunS :=
  { clock := 0
    pending := env.cmds
    commandsRun := []
    prog := init_progress sid
    rev := []
    archive := none }

/-- `ColmapProcessor._process_session` (colmap_wrapper.py 274-515): run the
body steps; a terminating step already recorded the terminal Error/Cancelled
update.  On success, attempt the archive inside try/except — a failing
archive is only logged (lines 488-494) — then record the final Completed
update at 100 with the output files. -/
def process_session (cfg : Config) (env : SessEnv) (sid : String) : RunS :=
  match runSteps env.cancelTick (stepsFor cfg env) (init_run env sid) with
  | Except.error s => s
  | Except.ok s =>
    let s1 := { s with archive :=
      if env.archive_fails then none
      else create_model_archive sid cfg env.time_now (archive_cands cfg env) }
    updS s1 PStage.completed PStatus.completed 100
      "COLMAP processing completed successfully" none (output_files_for cfg env)

/-! ### Session registry and input validation -/

/-- Python dict assignment `d[k] = v` on an association list. -/
def assoc_set {α : Type} : List (String × α) → String → α → List (String × α)
  | [], k, v => [(k, v)]
  | (k1, v1) :: rest, k, v =>
    if k1 = k then (k, v) :: rest else (k1, v1) :: assoc_set rest k v

/-- The registry maps of `ColmapProcessor` (colmap_wrapper.py 130-132):
per-session progress, worker threads (value = `is_alive()`), cancel flags. -/
structure ColmapState where
  progress : List (String × ColmapProgress)
  threads : List (String × Bool)
  cancel_flags : List (String × Bool)
  deriving DecidableEq

/-- The submission path of `ColmapProcessor.process_images`
(colmap_wrapper.py 197-241): if the session id already has a live worker
thread, raise before touching any state; otherwise register fresh progress
and a cancel flag, and in async mode record the started worker thread.
(The worker run itself is `process_session`.) -/
def process_images (st : ColmapState) (sid : String) (asyncMode : Bool) :
    ColmapState × Except String String :=
  match st.threads.lookup sid with
  | some true => (st, Except.error ("Processing already in progress for session " ++ sid))
  | _ =>
    let st1 := { st with
      progress := assoc_set st.progress sid (init_progress sid)
      cancel_flags := assoc_set st.cancel_flags sid false }
    let st2 := if asyncMode then { st1 with threads := assoc_set st1.threads sid true } else st1
    (st2, Except.ok "started")

/-- Filesystem facts about one path: `os.path.exists` and
`os.access(·, os.R_OK)`. -/
structure FileInfo where
  file_present : Bool
  readable : Bool

/-- The per-file loop of `validate_image_set` (colmap_wrapper.py 778-783):
first missing or unreadable file fails the validation. -/
def check_image_files (fs : String → FileInfo) : List String → Option (Bool × String)
  | [] => none
  | p :: rest =>
    if (fs p).file_present = false then some (false, "Image file not found: " ++ p)
    else if (fs p).readable = false then some (false, "Image file not readable: " ++ p)
    else check_image_files fs rest

/-- `validate_image_set` (colmap_wrapper.py 755-785). -/
def validate_image_set (fs : String → FileInfo) (image_files : List String) :
    Bool × String :=
  if image_files.isEmpty then (false, "No image files provided")
  else if image_files.length < 2 then
    (false, "At least 2 images are required for 3D reconstruction")
  else
    let validation_msg :=
      if image_files.length < 3 then
        "Warning: Only " ++ toString image_files.length ++
          " images provided. At least 3 images are recommended for robust 3D reconstruction."
      else "Image set validation passed: " ++ toString image_files.length ++ " images"
    match check_image_files fs image_files with
    | some r => r
    | none => (true, validation_msg)

/-! ### Verification-layer definitions -/

/-- `needle` occurs contiguously inside `hay`. -/
def strContainsSub (needle hay : String) : Prop :=
  List.IsInfix needle.data hay.data

/-- Invariant of the in-progress part of a worker run: every recorded update
so far has Running status, a percent in (0,100], percents are non-decreasing
in update order (`rev` is newest first), and the newest percent is at most
`p`. -/
def PreInv (r : List (PStatus × ℚ)) (p : ℚ) : Prop :=
  (∀ u ∈ r, u.1 = PStatus.running) ∧
  (∀ u ∈ r, 0 < u.2 ∧ u.2 ≤ 100) ∧
  List.Chain' (fun a b => b.2 ≤ a.2) r ∧
  (∀ u ∈ r.head?, u.2 ≤ p) ∧ 0 < p ∧ p ≤ 100

/-- Shape of a finished worker run: the last recorded update carries the
terminal status and percent of the progress record, all earlier updates are
Running with positive percents non-decreasing in order, and the terminal is
either Error/Cancelled at percent 0 or Completed at percent 100. -/
def FinTerm (s : RunS) : Prop :=
  ∃ r, s.rev = (s.prog.status, s.prog.progress_percent) :: r ∧
    (∀ u ∈ r, u.1 = PStatus.running) ∧
    (∀ u ∈ r, 0 < u.2 ∧ u.2 ≤ 100) ∧
    List.Chain' (fun a b => b.2 ≤ a.2) r ∧
    (((s.prog.status = PStatus.error ∨ s.prog.status = PStatus.cancelled) ∧
        s.prog.progress_percent = 0) ∨
      (s.prog.status = PStatus.completed ∧ s.prog.progress_percent = 100))

/-- Admissibility of one step given the last reported percent `p`. -/
def stepLB (p : ℚ) : StepI → Prop
  | StepI.upd _ q _ => p ≤ q ∧ 0 < q ∧ q ≤ 100
  | StepI.copy _ => p ≤ 5
  | _ => True

/-- Last reported percent after one step (an upper bound for `copy`). -/
def stepOut (p : ℚ) : StepI → ℚ
  | StepI.upd _ q _ => q
  | StepI.copy _ => 10
  | _ => p

/-- The percents reported along a step list never decrease. -/
def StepsMono : ℚ → List StepI → Prop
  | p, [] => p ≤ 100
  | p, st :: rest => stepLB p st ∧ StepsMono (stepOut p st) rest

/-- A configuration with dense reconstruction and meshing disabled. -/
def cfg_plain : Config := ⟨false, false, 1920, "exhaustive", true, "0", true, true, true⟩

/-- OBJ mesh with two vertices at identical coordinates and one face using
all three original indices. -/
def c1_mesh : ObjMesh := ⟨[(0, 0, 0), (0, 0, 0), (1, 0, 0)], [(1, 2, 3)]⟩

/-- Environment in which the cancellation token becomes signalled at tick 2,
which is read while the feature-extraction command is still polling. -/
def env_cancel_mid : SessEnv :=
  ⟨1, some 2, [⟨2, 0, "", ""⟩], false, true, false, false, false, "t"⟩

/-- Environment in which the cancellation token becomes signalled exactly at
the checkpoint read after the feature-extraction command (tick d1+3: two
copy-loop reads, d1 in-command reads, then the checkpoint). -/
def env_cancel_chk (d1 : ℕ) (rest : List CmdSpec) : SessEnv :=
  ⟨2, some (d1 + 3), ⟨d1, 0, "", ""⟩ :: rest, false, true, false, false, false, "t"⟩

/-- Environment whose matcher process stays alive for `d` poll iterations
with captured streams `so`/`se`; no cancellation. -/
def env_matcher_slow (d : ℕ) (so se : String) : SessEnv :=
  ⟨2, none, [⟨0, 0, "", ""⟩, ⟨d, 0, so, se⟩], false, true, false, false, false, "t"⟩

/-- An archive candidate whose file is missing from disk. -/
def c7_missing : ArchCand := ⟨"sparse_model.ply", "sparse_model", false, true⟩

/-- An archive candidate that is present and readable. -/
def c7_present : ArchCand := ⟨"fused.ply", "dense_pointcloud", true, true⟩

/-- A well-formed ascii raw-geometry file with 4 vertices and 2 triangular
faces referencing indices 0-3 (the scenario of the spec's converter test). -/
def c5_ply : PlyFile :=
  ⟨"ascii", 4, 2, false,
   [((0, 0, 0), []), ((1, 0, 0), []), ((0, 1, 0), []), ((0, 0, 1), [])],
   [(3, [0, 1, 2]), (3, [1, 2, 3])]⟩

/-- An ascii raw-geometry file declaring zero vertices and zero faces. -/
def c10_ply : PlyFile := ⟨"ascii", 0, 0, false, [], []⟩

/-- Environment where every external command exits 0 immediately, every
engine output file exists, no cancellation is requested, and the archive
step fails. -/
def c6_env : SessEnv :=
  ⟨2, none, [⟨0, 0, "", ""⟩, ⟨0, 0, "", ""⟩, ⟨0, 0, "", ""⟩, ⟨0, 0, "", ""⟩],
   true, true, true, true, true, "now"⟩

/-- Registry state in which session `s1` has a live worker thread. -/
def c8_state : ColmapState := ⟨[], [("s1", true)], []⟩

/-- Filesystem in which every path exists and is readable. -/
def fs_all_good : String → FileInfo := fun _ => ⟨true, true⟩

/-! ### Supporting lemmas -/


theorem foldl_min_le (xs : List ℚ) : ∀ x : ℚ, xs.foldl min x ≤ x := by
  induction xs with
  | nil => intro x; simp
  | cons a as ih =>
    intro x
    calc as.foldl min (min x a) ≤ min x a := ih (min x a)
    _ ≤ x := min_le_left x a

theorem le_foldl_max (xs : List ℚ) : ∀ x : ℚ, x ≤ xs.foldl max x := by
  induction xs with
  | nil => intro x; simp
  | cons a as ih =>
    intro x
    calc x ≤ max x a := le_max_left x a
    _ ≤ as.foldl max (max x a) := ih (max x a)

theorem calculate_bounding_box_sound (vs : List Vec3) :
    let bb := calculate_bounding_box vs
    (bb.bmin.1 ≤ bb.bmax.1 ∧ bb.bmin.2.1 ≤ bb.bmax.2.1 ∧ bb.bmin.2.2 ≤ bb.bmax.2.2) ∧
    bb.center.1 = (bb.bmin.1 + bb.bmax.1) / 2 ∧
    bb.center.2.1 = (bb.bmin.2.1 + bb.bmax.2.1) / 2 ∧
    bb.center.2.2 = (bb.bmin.2.2 + bb.bmax.2.2) / 2 := by
  match vs with
  | [] => simp [calculate_bounding_box]
  | v :: rest =>
    refine ⟨⟨?_, ?_, ?_⟩, rfl, rfl, rfl⟩
    · exact le_trans (foldl_min_le _ _) (le_foldl_max _ _)
    · exact le_trans (foldl_min_le _ _) (le_foldl_max _ _)
    · exact le_trans (foldl_min_le _ _) (le_foldl_max _ _)



theorem filterMap_all_some_length {α β : Type} (g : α → Option β) :
    ∀ l : List α, (∀ x ∈ l, (g x).isSome) → (l.filterMap g).length = l.length := by
  intro l
  induction l with
  | nil => intro _; rfl
  | cons a as ih =>
    intro h
    have ha := h a (List.mem_cons_self a as)
    rcases Option.isSome_iff_exists.mp ha with ⟨b, hb⟩
    simp [List.filterMap_cons, hb, ih (fun x hx => h x (List.mem_cons_of_mem a hx))]

/-- C1 (code bug): `clean_mesh` builds `vertex_map` but never applies it to
face indices.  On an OBJ mesh whose first two vertices have identical
(rounded) coordinates and whose one face uses all three original indices,
the cleaned mesh has 2 vertices yet keeps face `(1,2,3)` unchanged, so the
face references vertex index 3, beyond the new vertex count — contradicting
the claimed remapping/no-out-of-range property (evaluation of the code at
the failing input). -/
theorem claim_C1_clean_mesh_bug :
    clean_mesh c1_mesh = ⟨[(0, 0, 0), (1, 0, 0)], [(1, 2, 3)]⟩ ∧
    (clean_mesh c1_mesh).vertices.length < c1_mesh.vertices.length ∧
    ∃ fl ∈ (clean_mesh c1_mesh).faces, ((clean_mesh c1_mesh).vertices.length : ℤ) < fl.2.2 := by
  have h : clean_mesh c1_mesh = ⟨[(0, 0, 0), (1, 0, 0)], [(1, 2, 3)]⟩ := by
    simp [clean_mesh, c1_mesh, clean_vertex_step, round6, Prod.ext_iff]
    decide
  refine ⟨h, ?_, ?_⟩
  · rw [h]; decide
  · rw [h]; exact ⟨(1, 2, 3), by decide, by decide⟩

/-- C10: `calculate_bounding_box` is total on the empty vertex list,
returning `min = max = center = (0,0,0)`, so converting a file declaring
zero vertices yields a bounding box equal to the zero box, which satisfies
`min ≤ max` componentwise and `center = (min+max)/2`. -/
theorem claim_C10_bbox_empty_total :
    calculate_bounding_box [] = ⟨(0, 0, 0), (0, 0, 0), (0, 0, 0)⟩ ∧
    ∀ f : PlyFile, f.vertex_count = 0 →
      (convert_ply_to_obj f).boundingBox = ⟨(0, 0, 0), (0, 0, 0), (0, 0, 0)⟩ ∧
      ((convert_ply_to_obj f).boundingBox.bmin.1 ≤ (convert_ply_to_obj f).boundingBox.bmax.1 ∧
       (convert_ply_to_obj f).boundingBox.bmin.2.1 ≤ (convert_ply_to_obj f).boundingBox.bmax.2.1 ∧
       (convert_ply_to_obj f).boundingBox.bmin.2.2 ≤ (convert_ply_to_obj f).boundingBox.bmax.2.2) ∧
      ((convert_ply_to_obj f).boundingBox.center.1 =
        ((convert_ply_to_obj f).boundingBox.bmin.1 + (convert_ply_to_obj f).boundingBox.bmax.1) / 2 ∧
       (convert_ply_to_obj f).boundingBox.center.2.1 =
        ((convert_ply_to_obj f).boundingBox.bmin.2.1 + (convert_ply_to_obj f).boundingBox.bmax.2.1) / 2 ∧
       (convert_ply_to_obj f).boundingBox.center.2.2 =
        ((convert_ply_to_obj f).boundingBox.bmin.2.2 + (convert_ply_to_obj f).boundingBox.bmax.2.2) / 2) := by
  refine ⟨rfl, ?_⟩
  intro f h0
  have hbb : (convert_ply_to_obj f).boundingBox = ⟨(0, 0, 0), (0, 0, 0), (0, 0, 0)⟩ := by
    simp only [convert_ply_to_obj, h0]
    simp
    rfl
  refine ⟨hbb, ?_, ?_⟩ <;> rw [hbb] <;> norm_num

theorem c9_check_none (fs : String → FileInfo) :
    ∀ l : List String, (∀ p ∈ l, (fs p).file_present = true ∧ (fs p).readable = true) →
      check_image_files fs l = none := by
  intro l
  induction l with
  | nil => intro _; rfl
  | cons a as ih =>
    intro h
    have := h a (List.mem_cons_self a as)
    simp [check_image_files, this.1, this.2, ih (fun p hp => h p (List.mem_cons_of_mem a hp))]

theorem c9_check_some_false (fs : String → FileInfo) :
    ∀ (l : List String) r, check_image_files fs l = some r → r.1 = false := by
  intro l
  induction l with
  | nil => intro r h; simp [check_image_files] at h
  | cons a as ih =>
    intro r h
    by_cases hp : (fs a).file_present = false
    · simp [check_image_files, hp] at h; rw [← h]
    · by_cases hr : (fs a).readable = false
      · simp [check_image_files, hp, hr] at h; rw [← h]
      · simp [check_image_files, hp, hr] at h
        exact ih r h

theorem c9_check_bad (fs : String → FileInfo) :
    ∀ (l : List String), (∃ p ∈ l, (fs p).file_present = false ∨ (fs p).readable = false) →
      check_image_files fs l ≠ none := by
  intro l
  induction l with
  | nil => rintro ⟨p, hp, _⟩ _; exact absurd hp (List.not_mem_nil p)
  | cons a as ih =>
    rintro ⟨p, hp, hbad⟩ hnone
    by_cases hpa : (fs a).file_present = false
    · simp [check_image_files, hpa] at hnone
    · by_cases hra : (fs a).readable = false
      · simp [check_image_files, hpa, hra] at hnone
      · simp [check_image_files, hpa, hra] at hnone
        rcases List.mem_cons.mp hp with rfl | hmem
        · rcases hbad with h | h
          · exact hpa h
          · exact hra h
        · exact ih ⟨p, hmem, hbad⟩ hnone



theorem c9_none_good (fs : String → FileInfo) :
    ∀ l : List String, check_image_files fs l = none →
      ∀ p ∈ l, (fs p).file_present = true ∧ (fs p).readable = true := by
  intro l
  induction l with
  | nil => intro _ p hp; exact absurd hp (List.not_mem_nil p)
  | cons a as ih =>
    intro h p hp
    by_cases hpa : (fs a).file_present = false
    · simp [check_image_files, hpa] at h
    · by_cases hra : (fs a).readable = false
      · simp [check_image_files, hpa, hra] at h
      · simp [check_image_files, hpa, hra] at h
        rcases List.mem_cons.mp hp with rfl | hmem
        · exact ⟨Bool.not_eq_false _ |>.mp hpa, Bool.not_eq_false _ |>.mp hra⟩
        · exact ih h p hmem

/-- C9: `validate_image_set` rejects every list with fewer than 2 entries
and every list containing a missing or unreadable path, while a list of
exactly 2 existing readable paths is accepted (True) with the
at-least-3-images warning message rather than being rejected. -/
theorem claim_C9_validate_image_set (fs : String → FileInfo) (image_files : List String) :
    (image_files.length < 2 → (validate_image_set fs image_files).1 = false) ∧
    ((∃ p ∈ image_files, (fs p).file_present = false ∨ (fs p).readable = false) →
      (validate_image_set fs image_files).1 = false) ∧
    (image_files.length = 2 →
      (∀ p ∈ image_files, (fs p).file_present = true ∧ (fs p).readable = true) →
      validate_image_set fs image_files =
        (true, "Warning: Only 2 images provided. At least 3 images are recommended for robust 3D reconstruction.")) := by
  refine ⟨?_, ?_, ?_⟩
  · intro hlen
    by_cases he : image_files.isEmpty
    · simp [validate_image_set, he]
    · simp only [validate_image_set, he, if_false, Bool.false_eq_true]
      rw [if_pos hlen]
  · intro hbad
    by_cases he : image_files.isEmpty
    · simp [validate_image_set, he]
    · by_cases hlen : image_files.length < 2
      · simp [validate_image_set, he, hlen]
      · simp only [validate_image_set, he, hlen, if_false, Bool.false_eq_true]
        cases hc : check_image_files fs image_files with
        | none => exact absurd hc (c9_check_bad fs image_files hbad)
        | some r => simp [c9_check_some_false fs image_files r hc]
  · intro hlen hgood
    have he : image_files.isEmpty = false := by
      cases image_files with
      | nil => simp at hlen
      | cons a as => rfl
    have h2 : ¬ image_files.length < 2 := by omega
    have h3 : image_files.length < 3 := by omega
    simp only [validate_image_set, he, h2, h3, if_true, if_false, Bool.false_eq_true]
    rw [c9_check_none fs image_files hgood, hlen]
    rfl

/-- C8: submitting a session id whose worker thread is still alive makes
`process_images` raise the already-in-progress error before any state is
modified: the registry is returned unchanged. -/
theorem claim_C8_duplicate_submission (st : ColmapState) (sid : String) (am : Bool)
    (halive : st.threads.lookup sid = some true) :
    process_images st sid am =
      (st, Except.error ("Processing already in progress for session " ++ sid)) := by
  simp [process_images, halive]

/-- C7 counterexample: called with a single missing candidate file, the
archive builder creates an archive with no entries at all — in particular no
metadata document — because it returns before writing metadata when zero
files could be added, refuting the claim that a metadata document is always
appended. -/
theorem claim_C7_counterexample_no_metadata :
    create_model_archive "sess" cfg_plain "t0" [c7_missing] = some [] ∧
    count_metadata [] = 0 := by
  constructor
  · rfl
  · rfl

/-- C7 (amended): whenever at least one candidate file is present and
readable, the archive contains exactly the present-and-readable files (each
under `type/filename`; missing or unreadable candidates skipped without
aborting) followed by exactly one metadata document carrying the session id,
creation time, full candidate list and processing configuration. -/
theorem claim_C7_amended_metadata_when_added (sid t : String) (cfg : Config) (files : List ArchCand)
    (hsome : ∃ f ∈ files, f.file_present = true ∧ f.readable = true) :
    create_model_archive sid cfg t files =
      some ((files.filter (fun f => f.file_present && f.readable)).map
          (fun f => ArchEntry.file (f.ftype ++ "/" ++ f.path)) ++
        [ArchEntry.metadataDoc sid t files cfg]) ∧
    count_metadata ((files.filter (fun f => f.file_present && f.readable)).map
          (fun f => ArchEntry.file (f.ftype ++ "/" ++ f.path)) ++
        [ArchEntry.metadataDoc sid t files cfg]) = 1 := by
  rcases hsome with ⟨f, hf, hp, hr⟩
  have hne : files ≠ [] := List.ne_nil_of_mem hf
  have hmem : f ∈ files.filter (fun f => f.file_present && f.readable) := by
    rw [List.mem_filter]
    exact ⟨hf, by rw [hp, hr]; rfl⟩
  have hadd : ¬ (files.filter (fun f => f.file_present && f.readable)).isEmpty = true := by
    rw [List.isEmpty_iff]
    exact fun h => absurd (h ▸ hmem) (List.not_mem_nil f)
  constructor
  · simp only [create_model_archive]
    rw [if_neg (by rw [List.isEmpty_iff]; exact hne), if_neg hadd]
  · rw [count_metadata, List.filter_append, List.filter_map]
    have : (fun f : ArchCand => is_metadata (ArchEntry.file (f.ftype ++ "/" ++ f.path))) = fun _ => false := by
      funext x; rfl
    rw [Function.comp_def]
    simp [this, is_metadata]



theorem flagAt_false_of_le {cT : Option ℕ} {t t' : ℕ} (h : t ≤ t')
    (hf : flagAt cT t' = false) : flagAt cT t = false := by
  cases cT with
  | none => rfl
  | some c =>
    simp only [flagAt, decide_eq_false_iff_not, not_le] at hf ⊢
    omega

theorem run_poll_loop_clean (cT : Option ℕ) (tT : ℕ) :
    ∀ (rem k clock : ℕ), flagAt cT (clock + rem) = false → k + rem ≤ tT + 1 →
      run_poll_loop cT tT rem k clock = (clock + rem, none) := by
  intro rem
  induction rem with
  | zero => intro k clock _ _; simp [run_poll_loop]
  | succ r ih =>
    intro k clock hf hk
    have hf1 : flagAt cT (clock + 1) = false := flagAt_false_of_le (by omega) hf
    have hkt : ¬ tT < k := by omega
    simp only [run_poll_loop, hf1, if_false, hkt, Bool.false_eq_true]
    have := ih (k + 1) (clock + 1) (by rw [show clock + 1 + r = clock + (r + 1) by omega]; exact hf) (by omega)
    rw [this]
    congr 1
    omega

theorem run_poll_loop_timeout (cT : Option ℕ) (tT : ℕ) :
    ∀ (rem k clock : ℕ), k ≤ tT + 1 → tT + 2 ≤ k + rem →
      flagAt cT (clock + ((tT + 2) - k)) = false →
      run_poll_loop cT tT rem k clock = (clock + ((tT + 2) - k), some CmdStop.byTimeout) := by
  intro rem
  induction rem with
  | zero => intro k clock hk hr _; omega
  | succ r ih =>
    intro k clock hk hr hf
    have hf1 : flagAt cT (clock + 1) = false := flagAt_false_of_le (by omega) hf
    by_cases ht : tT < k
    · have hk1 : k = tT + 1 := by omega
      simp only [run_poll_loop, hf1, Bool.false_eq_true, if_false, ht, if_true]
      rw [hk1]
      congr 2
      omega
    · simp only [run_poll_loop, hf1, Bool.false_eq_true, if_false, ht, if_true]
      have := ih (k + 1) (clock + 1) (by omega) (by omega)
        (by rw [show clock + 1 + ((tT + 2) - (k + 1)) = clock + ((tT + 2) - k) by omega]; exact hf)
      rw [this]
      congr 1
      omega

theorem run_colmap_command_ok (cT : Option ℕ) (spec : CmdSpec) (cmdStr : String)
    (m clock : ℕ) (hf : flagAt cT (clock + spec.duration) = false)
    (hd : spec.duration ≤ 600 * m + 1) (he : spec.exitCode = 0) :
    run_colmap_command cT spec cmdStr m clock = (clock + spec.duration, RunOutcome.success) := by
  simp only [run_colmap_command]
  rw [run_poll_loop_clean cT (600 * m) spec.duration 0 clock hf (by omega)]
  simp [he]

theorem run_colmap_command_timed_out (cT : Option ℕ) (spec : CmdSpec) (cmdStr : String)
    (m clock : ℕ) (hf : flagAt cT (clock + (600 * m + 2)) = false)
    (hd : 600 * m + 2 ≤ spec.duration) :
    run_colmap_command cT spec cmdStr m clock =
      (clock + (600 * m + 2),
       RunOutcome.timedOut (timeout_error_msg m spec.stdoutS spec.stderrS cmdStr)) := by
  simp only [run_colmap_command]
  rw [run_poll_loop_timeout cT (600 * m) spec.duration 0 clock (by omega) (by omega)
    (by rw [show clock + ((600 * m + 2) - 0) = clock + (600 * m + 2) by omega]; exact hf)]
  norm_num



theorem check_cancel_ok (cT : Option ℕ) (s : RunS) (hf : flagAt cT (s.clock + 1) = false) :
    check_cancel cT s = Except.ok { s with clock := s.clock + 1 } := by
  simp [check_cancel, hf]

theorem check_cancel_stop (cT : Option ℕ) (s : RunS) (hf : flagAt cT (s.clock + 1) = true) :
    check_cancel cT s = Except.error (handle_cancellation { s with clock := s.clock + 1 }) := by
  simp [check_cancel, hf]

theorem run_cmd_step_ok (cT : Option ℕ) (name : String) (m : ℕ) (s : RunS)
    (hf : flagAt cT (s.clock + (s.pending.headD ⟨0, 0, "", ""⟩).duration) = false)
    (hd : (s.pending.headD ⟨0, 0, "", ""⟩).duration ≤ 600 * m + 1)
    (he : (s.pending.headD ⟨0, 0, "", ""⟩).exitCode = 0) :
    run_cmd_step cT name m s = Except.ok
      { s with clock := s.clock + (s.pending.headD ⟨0, 0, "", ""⟩).duration,
               pending := s.pending.tail,
               commandsRun := s.commandsRun ++ [name] } := by
  simp only [run_cmd_step]
  rw [run_colmap_command_ok cT _ name m s.clock hf hd he]

theorem run_cmd_step_timed_out (cT : Option ℕ) (name : String) (m : ℕ) (s : RunS)
    (hf : flagAt cT (s.clock + (600 * m + 2)) = false)
    (hd : 600 * m + 2 ≤ (s.pending.headD ⟨0, 0, "", ""⟩).duration) :
    run_cmd_step cT name m s = Except.error
      (error_update
        { s with clock := s.clock + (600 * m + 2),
                 pending := s.pending.tail,
                 commandsRun := s.commandsRun ++ [name] }
        (timeout_error_msg m (s.pending.headD ⟨0, 0, "", ""⟩).stdoutS
          (s.pending.headD ⟨0, 0, "", ""⟩).stderrS name)) := by
  simp only [run_cmd_step]
  rw [run_colmap_command_timed_out cT _ name m s.clock hf hd]

/-- Weak closed form of the copy loop on a clean run: known clock,
pending, commandsRun and archive, and the progress fields that later
updates do not overwrite are preserved. -/
theorem copy_images_loop_ok (cT : Option ℕ) (total : ℕ) :
    ∀ (rem i : ℕ) (s : RunS), flagAt cT (s.clock + rem) = false →
      ∃ pg rv, copy_images_loop cT total i rem s = Except.ok
          { clock := s.clock + rem, pending := s.pending,
            commandsRun := s.commandsRun, prog := pg, rev := rv,
            archive := s.archive } ∧
        pg.error_message = s.prog.error_message ∧
        pg.output_files = s.prog.output_files ∧
        pg.end_time_set = s.prog.end_time_set ∧
        pg.sessionId = s.prog.sessionId := by
  intro rem
  induction rem with
  | zero =>
    intro i s _
    refine ⟨s.prog, s.rev, ?_, rfl, rfl, rfl, rfl⟩
    simp [copy_images_loop]
  | succ r ih =>
    intro i s hf
    have hf1 : flagAt cT (s.clock + 1) = false := flagAt_false_of_le (by omega) hf
    simp only [copy_images_loop, hf1, Bool.false_eq_true, if_false]
    set s2 := updS { s with clock := s.clock + 1 } PStage.initialization PStatus.running
      (5 + ((i : ℚ) / (total : ℚ)) * 5)
      ("Copied " ++ toString (i + 1) ++ "/" ++ toString total ++ " images") none [] with hs2
    have hclock : s2.clock = s.clock + 1 := rfl
    have hf2 : flagAt cT (s2.clock + r) = false := by
      rw [hclock, show s.clock + 1 + r = s.clock + (r + 1) by omega]
      exact hf
    rcases ih (i + 1) s2 hf2 with ⟨pg, rv, heq, hem, hof, het, hsid⟩
    refine ⟨pg, rv, ?_, ?_, ?_, ?_, ?_⟩
    · rw [heq]
      have hc2 : s2.clock + r = s.clock + (r + 1) := by rw [hclock]; omega
      rw [hc2]
      rfl
    · rw [hem]; simp [hs2, updS, update_progress]
    · rw [hof]; simp [hs2, updS, update_progress]
    · rw [het]; simp [hs2, updS, update_progress]
    · rw [hsid]; simp [hs2, updS, update_progress]



theorem runSteps_cons_ok {cT : Option ℕ} {st : StepI} {rest : List StepI} {s s1 : RunS}
    (h : stepExec cT st s = Except.ok s1) :
    runSteps cT (st :: rest) s = runSteps cT rest s1 := by
  simp [runSteps, h]

theorem runSteps_cons_error {cT : Option ℕ} {st : StepI} {rest : List StepI} {s s1 : RunS}
    (h : stepExec cT st s = Except.error s1) :
    runSteps cT (st :: rest) s = Except.error s1 := by
  simp [runSteps, h]

theorem stepExec_upd (cT : Option ℕ) (st : PStage) (q : ℚ) (m : String) (s : RunS) :
    stepExec cT (StepI.upd st q m) s = Except.ok (updS s st PStatus.running q m none []) := rfl

theorem stepExec_copy (cT : Option ℕ) (n : ℕ) (s : RunS) :
    stepExec cT (StepI.copy n) s = copy_images_loop cT n 0 n s := rfl

theorem stepExec_cmd (cT : Option ℕ) (name : String) (m : ℕ) (s : RunS) :
    stepExec cT (StepI.cmd name m) s = run_cmd_step cT name m s := rfl

theorem stepExec_chk (cT : Option ℕ) (s : RunS) :
    stepExec cT StepI.chk s = check_cancel cT s := rfl

/-- C2 (amended): when the token becomes signalled and is first observed at
one of the explicit between-stage checkpoints (here: right after the
feature-extraction command, in an environment whose feature command runs for
`d1 ≤ 18001` ticks and exits 0), the session terminates with terminal status
Cancelled, progress reset to 0, end time set, and no command after the
cancellation point is ever spawned. -/
theorem claim_C2_amended_checkpoint_cancel (d1 : ℕ) (hd1 : d1 ≤ 18001) (rest : List CmdSpec) :
    (process_session cfg_plain (env_cancel_chk d1 rest) "sid").prog.status = PStatus.cancelled ∧
    (process_session cfg_plain (env_cancel_chk d1 rest) "sid").prog.progress_percent = 0 ∧
    (process_session cfg_plain (env_cancel_chk d1 rest) "sid").commandsRun = ["feature_extractor"] ∧
    (process_session cfg_plain (env_cancel_chk d1 rest) "sid").prog.end_time_set = true := by
  have hsteps : stepsFor cfg_plain (env_cancel_chk d1 rest) =
      [ StepI.upd PStage.initialization 5 "Setting up workspace and copying images",
        StepI.copy 2,
        StepI.upd PStage.feature_extraction 15 "Extracting features from images",
        StepI.cmd "feature_extractor" 30,
        StepI.chk,
        StepI.upd PStage.feature_matching 35 "Matching features between images",
        StepI.cmd "exhaustive_matcher" 10,
        StepI.chk,
        StepI.upd PStage.sparse_reconstruction 55 "Performing sparse 3D reconstruction",
        StepI.cmd "mapper" 20,
        StepI.chk ] := rfl
  set s0 := init_run (env_cancel_chk d1 rest) "sid" with hs0
  set s1 := updS s0 PStage.initialization PStatus.running 5
    "Setting up workspace and copying images" none [] with hs1
  have hclock1 : s1.clock = 0 := rfl
  have hfcopy : flagAt (env_cancel_chk d1 rest).cancelTick (s1.clock + 2) = false := by
    rw [hclock1]
    simp only [env_cancel_chk, flagAt]
    simp
  rcases copy_images_loop_ok (env_cancel_chk d1 rest).cancelTick 2 2 0 s1 hfcopy with
    ⟨pg, rv, hcopy, hem, hof, het, hsid⟩
  set s2 : RunS := ({ clock := s1.clock + 2, pending := s1.pending, commandsRun := s1.commandsRun, prog := pg, rev := rv, archive := s1.archive } : RunS) with hs2
  set s3 := updS s2 PStage.feature_extraction PStatus.running 15
    "Extracting features from images" none [] with hs3
  have hpend3 : s3.pending = ⟨d1, 0, "", ""⟩ :: rest := rfl
  have hclock3 : s3.clock = 2 := rfl
  have hffeat : flagAt (env_cancel_chk d1 rest).cancelTick
      (s3.clock + (s3.pending.headD ⟨0, 0, "", ""⟩).duration) = false := by
    rw [hclock3, hpend3]
    simp only [env_cancel_chk, flagAt, List.headD_cons]
    simp only [decide_eq_false_iff_not, not_le]
    omega
  have hcmd := run_cmd_step_ok (env_cancel_chk d1 rest).cancelTick "feature_extractor" 30 s3 hffeat
    (by rw [hpend3]; simpa using hd1) (by rw [hpend3]; rfl)
  set s4 : RunS := ({ s3 with clock := s3.clock + (s3.pending.headD ⟨0, 0, "", ""⟩).duration, pending := s3.pending.tail, commandsRun := s3.commandsRun ++ ["feature_extractor"] } : RunS) with hs4
  have hfchk : flagAt (env_cancel_chk d1 rest).cancelTick (s4.clock + 1) = true := by
    have hc4 : s4.clock = 2 + d1 := by rw [hs4]; simp [hclock3, hpend3]
    rw [hc4]
    simp only [env_cancel_chk, flagAt, decide_eq_true_eq]
    omega
  have hchk := check_cancel_stop (env_cancel_chk d1 rest).cancelTick s4 hfchk
  have hrun : runSteps (env_cancel_chk d1 rest).cancelTick
      (stepsFor cfg_plain (env_cancel_chk d1 rest)) (init_run (env_cancel_chk d1 rest) "sid") =
      Except.error (handle_cancellation { s4 with clock := s4.clock + 1 }) := by
    rw [hsteps, ← hs0]
    rw [runSteps_cons_ok (by rw [stepExec_upd, ← hs1])]
    rw [runSteps_cons_ok (by rw [stepExec_copy]; rw [hcopy, hs2])]
    rw [runSteps_cons_ok (by rw [stepExec_upd, ← hs3])]
    rw [runSteps_cons_ok (by rw [stepExec_cmd]; rw [hcmd, hs4])]
    rw [runSteps_cons_error (by rw [stepExec_chk]; exact hchk)]
  have hps : process_session cfg_plain (env_cancel_chk d1 rest) "sid" =
      handle_cancellation { s4 with clock := s4.clock + 1 } := by
    unfold process_session
    rw [hrun]
  rw [hps]
  refine ⟨rfl, rfl, rfl, ?_⟩
  show (update_progress _ _ _ _ _ _ _).end_time_set = true
  simp [update_progress]



theorem strContainsSub_of_eq {x hay : String} (a b : String) (h : hay = a ++ x ++ b) :
    strContainsSub x hay :=
  ⟨a.data, b.data, by rw [h]; simp [String.data_append]⟩

theorem pyStrip_ne_empty {s : String} (c : Char) (hc : c ∈ s.data)
    (hw : c.isWhitespace = false) : pyStrip s ≠ "" := by
  intro h
  have hd : ((s.data.dropWhile Char.isWhitespace).reverse.dropWhile Char.isWhitespace).reverse = [] := by
    have := congrArg String.data h
    simpa [pyStrip] using this
  rw [List.reverse_eq_nil_iff] at hd
  rw [List.dropWhile_eq_nil_iff] at hd
  have hc1 : c ∈ s.data.dropWhile Char.isWhitespace := by
    have hsplit := List.takeWhile_append_dropWhile (p := Char.isWhitespace) (l := s.data)
    rcases List.mem_append.mp (by rw [hsplit]; exact hc) with h1 | h1
    · exact absurd (List.mem_takeWhile_imp h1) (by rw [hw]; exact Bool.false_ne_true)
    · exact h1
  have hc2 : c ∈ (s.data.dropWhile Char.isWhitespace).reverse := List.mem_reverse.mpr hc1
  have := hd c hc2
  rw [hw] at this
  exact Bool.false_ne_true this

theorem timeout_msg_has_duration (m : ℕ) (so se c : String) :
    strContainsSub (toString m ++ " minutes") (timeout_error_msg m so se c) := by
  apply strContainsSub_of_eq "COLMAP command timed out after "
    ((if se ≠ "" then "\nPartial STDERR: " ++ lastN 1000 (pyStrip se) else "")
      ++ ((if so ≠ "" then "\nPartial STDOUT: " ++ lastN 1000 (pyStrip so) else "")
      ++ (("\nCommand: " ++ c)
      ++ "\nThis may indicate challenging images with insufficient overlap or too many features.")))
  simp [timeout_error_msg, String.append_assoc]

theorem timeout_msg_has_stderr_tail (m : ℕ) (so se c : String) (hse : se ≠ "") :
    strContainsSub (lastN 1000 (pyStrip se)) (timeout_error_msg m so se c) := by
  apply strContainsSub_of_eq
    ("COLMAP command timed out after " ++ (toString m ++ " minutes") ++ "\nPartial STDERR: ")
    ((if so ≠ "" then "\nPartial STDOUT: " ++ lastN 1000 (pyStrip so) else "")
      ++ (("\nCommand: " ++ c)
      ++ "\nThis may indicate challenging images with insufficient overlap or too many features."))
  simp [timeout_error_msg, hse, String.append_assoc]
  rfl

theorem timeout_msg_has_stdout_tail (m : ℕ) (so se c : String) (hso : so ≠ "") :
    strContainsSub (lastN 1000 (pyStrip so)) (timeout_error_msg m so se c) := by
  apply strContainsSub_of_eq
    ("COLMAP command timed out after " ++ (toString m ++ " minutes")
      ++ (if se ≠ "" then "\nPartial STDERR: " ++ lastN 1000 (pyStrip se) else "")
      ++ "\nPartial STDOUT: ")
    (("\nCommand: " ++ c)
      ++ "\nThis may indicate challenging images with insufficient overlap or too many features.")
  simp [timeout_error_msg, hso, String.append_assoc]

theorem timeout_msg_ne_empty (m : ℕ) (so se c : String) :
    pyStrip (timeout_error_msg m so se c) ≠ "" := by
  apply pyStrip_ne_empty (Char.ofNat 67)
  · show _ ∈ (timeout_error_msg m so se c).data
    have : (timeout_error_msg m so se c) = "COLMAP command timed out after "
        ++ ((toString m ++ " minutes")
        ++ ((if se ≠ "" then "\nPartial STDERR: " ++ lastN 1000 (pyStrip se) else "")
        ++ ((if so ≠ "" then "\nPartial STDOUT: " ++ lastN 1000 (pyStrip so) else "")
        ++ (("\nCommand: " ++ c)
        ++ "\nThis may indicate challenging images with insufficient overlap or too many features.")))) := by
      simp [timeout_error_msg, String.append_assoc]
    rw [this, String.data_append]
    apply List.mem_append.mpr
    left
    decide
  · decide



theorem timeout_invoker_spec (cT : Option ℕ) (spec : CmdSpec) (cmdStr : String) (m clock : ℕ)
    (hf : flagAt cT (clock + (600 * m + 2)) = false)
    (hd : 600 * m + 2 ≤ spec.duration) :
    (run_colmap_command cT spec cmdStr m clock).2 =
      RunOutcome.timedOut (timeout_error_msg m spec.stdoutS spec.stderrS cmdStr) ∧
    (∀ msg2, RunOutcome.timedOut (timeout_error_msg m spec.stdoutS spec.stderrS cmdStr) ≠
      RunOutcome.failed msg2) ∧
    strContainsSub (toString m ++ " minutes")
      (timeout_error_msg m spec.stdoutS spec.stderrS cmdStr) ∧
    (spec.stderrS ≠ "" → strContainsSub (lastN 1000 (pyStrip spec.stderrS))
      (timeout_error_msg m spec.stdoutS spec.stderrS cmdStr)) ∧
    (spec.stdoutS ≠ "" → strContainsSub (lastN 1000 (pyStrip spec.stdoutS))
      (timeout_error_msg m spec.stdoutS spec.stderrS cmdStr)) := by
  refine ⟨?_, ?_, timeout_msg_has_duration m spec.stdoutS spec.stderrS cmdStr,
    timeout_msg_has_stderr_tail m spec.stdoutS spec.stderrS cmdStr,
    timeout_msg_has_stdout_tail m spec.stdoutS spec.stderrS cmdStr⟩
  · rw [run_colmap_command_timed_out cT spec cmdStr m clock hf hd]
  · intro msg2 h
    exact RunOutcome.noConfusion h

theorem timeout_session_spec (d : ℕ) (hd : 6002 ≤ d) (so se : String) :
    (process_session cfg_plain (env_matcher_slow d so se) "sid").prog.status = PStatus.error ∧
    (process_session cfg_plain (env_matcher_slow d so se) "sid").prog.progress_percent = 0 ∧
    (process_session cfg_plain (env_matcher_slow d so se) "sid").prog.error_message =
      some (timeout_error_msg 10 so se "exhaustive_matcher") ∧
    strContainsSub (toString (10 : ℕ) ++ " minutes")
      (process_session cfg_plain (env_matcher_slow d so se) "sid").prog.message := by
  have hsteps : stepsFor cfg_plain (env_matcher_slow d so se) =
      [ StepI.upd PStage.initialization 5 "Setting up workspace and copying images",
        StepI.copy 2,
        StepI.upd PStage.feature_extraction 15 "Extracting features from images",
        StepI.cmd "feature_extractor" 30,
        StepI.chk,
        StepI.upd PStage.feature_matching 35 "Matching features between images",
        StepI.cmd "exhaustive_matcher" 10,
        StepI.chk,
        StepI.upd PStage.sparse_reconstruction 55 "Performing sparse 3D reconstruction",
        StepI.cmd "mapper" 20,
        StepI.chk ] := rfl
  have hcT : (env_matcher_slow d so se).cancelTick = none := rfl
  set s0 := init_run (env_matcher_slow d so se) "sid" with hs0
  set s1 := updS s0 PStage.initialization PStatus.running 5
    "Setting up workspace and copying images" none [] with hs1
  rcases copy_images_loop_ok (env_matcher_slow d so se).cancelTick 2 2 0 s1 (by rw [hcT]; rfl)
    with ⟨pg, rv, hcopy, hem, hof, het, hsid⟩
  set s2 : RunS := ({ clock := s1.clock + 2, pending := s1.pending, commandsRun := s1.commandsRun, prog := pg, rev := rv, archive := s1.archive } : RunS) with hs2
  set s3 := updS s2 PStage.feature_extraction PStatus.running 15
    "Extracting features from images" none [] with hs3
  have hpend3 : s3.pending = ⟨0, 0, "", ""⟩ :: [⟨d, 0, so, se⟩] := rfl
  have hcmd := run_cmd_step_ok (env_matcher_slow d so se).cancelTick "feature_extractor" 30 s3
    (by rw [hcT]; rfl) (by rw [hpend3]; simp) (by rw [hpend3]; rfl)
  set s4 : RunS := ({ s3 with clock := s3.clock + (s3.pending.headD ⟨0, 0, "", ""⟩).duration, pending := s3.pending.tail, commandsRun := s3.commandsRun ++ ["feature_extractor"] } : RunS) with hs4
  have hchk := check_cancel_ok (env_matcher_slow d so se).cancelTick s4 (by rw [hcT]; rfl)
  set s5 : RunS := ({ s4 with clock := s4.clock + 1 } : RunS) with hs5
  set s6 := updS s5 PStage.feature_matching PStatus.running 35
    "Matching features between images" none [] with hs6
  have hpend6 : s6.pending = [⟨d, 0, so, se⟩] := rfl
  have hmat := run_cmd_step_timed_out (env_matcher_slow d so se).cancelTick
    "exhaustive_matcher" 10 s6 (by rw [hcT]; rfl) (by rw [hpend6]; simpa using hd)
  set msg := timeout_error_msg 10 ((s6.pending.headD ⟨0, 0, "", ""⟩).stdoutS)
    ((s6.pending.headD ⟨0, 0, "", ""⟩).stderrS) "exhaustive_matcher" with hmsg
  have hmsg2 : msg = timeout_error_msg 10 so se "exhaustive_matcher" := by
    rw [hmsg, hpend6]
    rfl
  set s7 : RunS := ({ s6 with clock := s6.clock + (600 * 10 + 2), pending := s6.pending.tail, commandsRun := s6.commandsRun ++ ["exhaustive_matcher"] } : RunS) with hs7
  have hrun : runSteps (env_matcher_slow d so se).cancelTick
      (stepsFor cfg_plain (env_matcher_slow d so se)) (init_run (env_matcher_slow d so se) "sid") =
      Except.error (error_update s7 msg) := by
    rw [hsteps, ← hs0]
    rw [runSteps_cons_ok (by rw [stepExec_upd, ← hs1])]
    rw [runSteps_cons_ok (by rw [stepExec_copy]; rw [hcopy, hs2])]
    rw [runSteps_cons_ok (by rw [stepExec_upd, ← hs3])]
    rw [runSteps_cons_ok (by rw [stepExec_cmd]; rw [hcmd, hs4])]
    rw [runSteps_cons_ok (by rw [stepExec_chk]; rw [hchk, hs5])]
    rw [runSteps_cons_ok (by rw [stepExec_upd, ← hs6])]
    rw [runSteps_cons_error (by rw [stepExec_cmd]; rw [hmat])]
  have hps : process_session cfg_plain (env_matcher_slow d so se) "sid" =
      error_update s7 msg := by
    unfold process_session
    rw [hrun]
  have hne : pyStrip msg = "" → False := by
    rw [hmsg2]
    exact timeout_msg_ne_empty 10 so se "exhaustive_matcher"
  have hne2 : msg ≠ "" := by
    intro h
    exact hne (by rw [h]; rfl)
  rw [hps]
  unfold error_update
  rw [if_neg hne]
  refine ⟨rfl, rfl, ?_, ?_⟩
  · show (update_progress _ _ _ _ _ (some msg) _).error_message = _
    simp only [update_progress]
    rw [if_neg hne2, hmsg2]
  · show strContainsSub _ ("Processing failed: " ++ msg)
    rw [hmsg2]
    apply strContainsSub_of_eq ("Processing failed: " ++ "COLMAP command timed out after ")
      ((if se ≠ "" then "\nPartial STDERR: " ++ lastN 1000 (pyStrip se) else "")
        ++ ((if so ≠ "" then "\nPartial STDOUT: " ++ lastN 1000 (pyStrip so) else "")
        ++ (("\nCommand: " ++ "exhaustive_matcher")
        ++ "\nThis may indicate challenging images with insufficient overlap or too many features.")))
    simp [timeout_error_msg, String.append_assoc]
    rfl



theorem stepsFor_budget (cfg : Config) (env : SessEnv) :
    ∀ st ∈ stepsFor cfg env, ∀ name m, st = StepI.cmd name m → 10 ≤ m := by
  intro st hst name m heq
  subst heq
  by_cases h1 : env.sparse_model_dir_exists <;>
    by_cases h2 : cfg.enable_dense_reconstruction <;>
      by_cases h3 : (cfg.enable_meshing && cfg.enable_dense_reconstruction) = true <;>
        simp [stepsFor, h1, h2, h3, List.mem_append] at hst <;>
          rcases hst with h | h <;> omega

theorem runSteps_all_ok (steps : List StepI) :
    ∀ s : RunS, (∀ c ∈ s.pending, c.exitCode = 0 ∧ c.duration ≤ 6001) →
      (∀ st ∈ steps, ∀ name m, st = StepI.cmd name m → 10 ≤ m) →
      ∃ s', runSteps none steps s = Except.ok s' ∧
        s'.prog.error_message = s.prog.error_message ∧
        s'.prog.output_files = s.prog.output_files ∧
        s'.prog.end_time_set = s.prog.end_time_set ∧
        s'.prog.sessionId = s.prog.sessionId ∧
        s'.archive = s.archive := by
  induction steps with
  | nil =>
    intro s _ _
    exact ⟨s, rfl, rfl, rfl, rfl, rfl, rfl⟩
  | cons st rest ih =>
    intro s hp hb
    have hbrest : ∀ st2 ∈ rest, ∀ name m, st2 = StepI.cmd name m → 10 ≤ m :=
      fun st2 h2 => hb st2 (List.mem_cons_of_mem st h2)
    cases st with
    | upd stg q msg =>
      set s1 := updS s stg PStatus.running q msg none [] with hs1
      have hpend : s1.pending = s.pending := rfl
      rcases ih s1 (by rw [hpend]; exact hp) hbrest with ⟨s', hrun, he, ho, het, hsid, ha⟩
      refine ⟨s', by rw [runSteps_cons_ok (stepExec_upd none stg q msg s), ← hs1]; exact hrun,
        ?_, ?_, ?_, ?_, ?_⟩
      · rw [he, hs1]; simp [updS, update_progress]
      · rw [ho, hs1]; simp [updS, update_progress]
      · rw [het, hs1]; simp [updS, update_progress]
      · rw [hsid, hs1]; simp [updS, update_progress]
      · rw [ha]; rfl
    | copy n =>
      rcases copy_images_loop_ok none n n 0 s rfl with ⟨pg, rv, hcopy, hem, hof, het1, hsid1⟩
      set s1 : RunS := ({ clock := s.clock + n, pending := s.pending, commandsRun := s.commandsRun, prog := pg, rev := rv, archive := s.archive } : RunS) with hs1
      rcases ih s1 hp hbrest with ⟨s', hrun, he, ho, het, hsid, ha⟩
      refine ⟨s', by rw [runSteps_cons_ok (by rw [stepExec_copy]; rw [hcopy, hs1])]; exact hrun,
        ?_, ?_, ?_, ?_, ?_⟩
      · rw [he]; exact hem
      · rw [ho]; exact hof
      · rw [het]; exact het1
      · rw [hsid]; exact hsid1
      · rw [ha]
    | cmd name m =>
      have hm : 10 ≤ m := hb (StepI.cmd name m) (List.mem_cons_self _ _) name m rfl
      have hspec : (s.pending.headD ⟨0, 0, "", ""⟩).exitCode = 0 ∧
          (s.pending.headD ⟨0, 0, "", ""⟩).duration ≤ 600 * m + 1 := by
        cases hpnd : s.pending with
        | nil => simp
        | cons c cs =>
          have := hp c (by rw [hpnd]; exact List.mem_cons_self c cs)
          simp only [List.headD_cons]
          exact ⟨this.1, by omega⟩
      have hcmd := run_cmd_step_ok none name m s rfl hspec.2 hspec.1
      set s1 : RunS := ({ s with clock := s.clock + (s.pending.headD ⟨0, 0, "", ""⟩).duration, pending := s.pending.tail, commandsRun := s.commandsRun ++ [name] } : RunS) with hs1
      have hptail : ∀ c ∈ s1.pending, c.exitCode = 0 ∧ c.duration ≤ 6001 := by
        intro c hc
        have hc2 : c ∈ s.pending.tail := hc
        apply hp
        cases hpnd : s.pending with
        | nil =>
          rw [hpnd] at hc2
          exact ((List.not_mem_nil c) (by simp at hc2)).elim
        | cons a as =>
          rw [hpnd] at hc2
          exact List.mem_cons_of_mem a (by simpa using hc2)
      rcases ih s1 hptail hbrest with ⟨s', hrun, he, ho, het, hsid, ha⟩
      exact ⟨s', by rw [runSteps_cons_ok (by rw [stepExec_cmd]; rw [hcmd, hs1])]; exact hrun,
        he, ho, het, hsid, ha⟩
    | chk =>
      have hchk := check_cancel_ok none s rfl
      set s1 : RunS := ({ s with clock := s.clock + 1 } : RunS) with hs1
      rcases ih s1 hp hbrest with ⟨s', hrun, he, ho, het, hsid, ha⟩
      exact ⟨s', by rw [runSteps_cons_ok (by rw [stepExec_chk]; rw [hchk, hs1])]; exact hrun,
        he, ho, het, hsid, ha⟩

/-- C6: when every external command succeeds within budget and no
cancellation is requested, the session reaches terminal status Completed at
progress 100 with its output files recorded, even when archive creation
fails — the failure leaves the archive absent but never flips the session to
Error. -/
theorem claim_C6_archive_failure_still_completed (cfg : Config) (env : SessEnv) (sid : String)
    (hcT : env.cancelTick = none)
    (hcmds : ∀ c ∈ env.cmds, c.exitCode = 0 ∧ c.duration ≤ 6001)
    (harch : env.archive_fails = true) :
    (process_session cfg env sid).prog.status = PStatus.completed ∧
    (process_session cfg env sid).prog.progress_percent = 100 ∧
    (process_session cfg env sid).prog.output_files = output_files_for cfg env ∧
    output_files_for cfg env ≠ [] ∧
    (process_session cfg env sid).archive = none ∧
    (process_session cfg env sid).prog.error_message = none := by
  have hpend : (init_run env sid).pending = env.cmds := rfl
  rcases runSteps_all_ok (stepsFor cfg env) (init_run env sid)
    (by rw [hpend]; exact hcmds) (stepsFor_budget cfg env) with
    ⟨s', hrun, he, ho, het, hsid, ha⟩
  have hps : process_session cfg env sid =
      updS { s' with archive := if env.archive_fails then none
          else create_model_archive sid cfg env.time_now (archive_cands cfg env) }
        PStage.completed PStatus.completed 100
        "COLMAP processing completed successfully" none (output_files_for cfg env) := by
    unfold process_session
    rw [hcT, hrun]
  have hofne : (output_files_for cfg env).isEmpty = false := rfl
  rw [hps]
  refine ⟨rfl, rfl, ?_, ?_, ?_, ?_⟩
  · show (update_progress _ _ _ _ _ _ _).output_files = _
    simp only [update_progress, hofne]
    rfl
  · intro h
    rw [h] at hofne
    exact absurd hofne (by simp)
  · show (if env.archive_fails then none else _) = none
    rw [harch]
    rfl
  · show (update_progress _ _ _ _ _ _ _).error_message = none
    simp only [update_progress]
    rw [he]
    rfl



theorem preInv_nil : PreInv [] 5 :=
  ⟨by simp, by simp, List.chain'_nil, by simp, by norm_num, by norm_num⟩

theorem preInv_mono {r : List (PStatus × ℚ)} {p p' : ℚ} (h : PreInv r p)
    (hle : p ≤ p') (h100 : p' ≤ 100) : PreInv r p' := by
  obtain ⟨h1, h2, h3, h4, h5, _⟩ := h
  exact ⟨h1, h2, h3, fun u hu => le_trans (h4 u hu) hle, lt_of_lt_of_le h5 hle, h100⟩

theorem preInv_cons_run {r : List (PStatus × ℚ)} {p q : ℚ} (h : PreInv r p)
    (hpq : p ≤ q) (hq0 : 0 < q) (hq100 : q ≤ 100) :
    PreInv ((PStatus.running, q) :: r) q := by
  obtain ⟨h1, h2, h3, h4, _, _⟩ := h
  refine ⟨?_, ?_, ?_, ?_, hq0, hq100⟩
  · intro u hu
    rcases List.mem_cons.mp hu with rfl | hu
    · rfl
    · exact h1 u hu
  · intro u hu
    rcases List.mem_cons.mp hu with rfl | hu
    · exact ⟨hq0, hq100⟩
    · exact h2 u hu
  · rw [List.chain'_cons']
    exact ⟨fun b hb => le_trans (h4 b hb) hpq, h3⟩
  · intro u hu
    simp at hu
    subst hu
    exact le_refl q

theorem updS_rev (s : RunS) (stage : PStage) (status : PStatus) (percent : ℚ)
    (message : String) (errMsg : Option String) (outFiles : List OutputFile) :
    (updS s stage status percent message errMsg outFiles).rev = (status, percent) :: s.rev := rfl

theorem finTerm_handle_cancellation {s : RunS} {p : ℚ} (h : PreInv s.rev p) :
    FinTerm (handle_cancellation s) := by
  obtain ⟨h1, h2, h3, _, _, _⟩ := h
  exact ⟨s.rev, rfl, h1, h2, h3, Or.inl ⟨Or.inr rfl, rfl⟩⟩

theorem finTerm_error_update {s : RunS} {p : ℚ} (h : PreInv s.rev p) (msg : String) :
    FinTerm (error_update s msg) := by
  obtain ⟨h1, h2, h3, _, _, _⟩ := h
  exact ⟨s.rev, rfl, h1, h2, h3, Or.inl ⟨Or.inl rfl, rfl⟩⟩

theorem copy_inv (cT : Option ℕ) (total : ℕ) :
    ∀ (rem i : ℕ) (s : RunS) (p : ℚ), i + rem = total → PreInv s.rev p →
      p ≤ 5 + ((i : ℚ) / (total : ℚ)) * 5 →
      (∃ s', copy_images_loop cT total i rem s = Except.ok s' ∧
        ∃ p', PreInv s'.rev p' ∧ p' ≤ 10) ∨
      (∃ s', copy_images_loop cT total i rem s = Except.error s' ∧ FinTerm s') := by
  intro rem
  induction rem with
  | zero =>
    intro i s p htot hPre hple
    left
    refine ⟨s, by simp [copy_images_loop], p, hPre, ?_⟩
    rcases Nat.eq_zero_or_pos total with h0 | hpos
    · have : i = 0 := by omega
      rw [this] at hple
      simpa using le_trans hple (by norm_num)
    · have hi : i = total := by omega
      rw [hi] at hple
      have : ((total : ℚ) / (total : ℚ)) = 1 := by
        rw [div_self]
        exact Nat.cast_ne_zero.mpr (by omega)
      rw [this] at hple
      linarith
  | succ r ih =>
    intro i s p htot hPre hple
    simp only [copy_images_loop]
    cases hflag : flagAt cT (s.clock + 1) with
    | true =>
      right
      refine ⟨handle_cancellation { s with clock := s.clock + 1 }, by simp [hflag], ?_⟩
      exact finTerm_handle_cancellation (p := p) hPre
    | false =>
      simp only [hflag, Bool.false_eq_true, if_false]
      have htpos : 0 < total := by omega
      have htq : (0 : ℚ) < (total : ℚ) := by exact_mod_cast htpos
      have hinn : (i : ℚ) / (total : ℚ) ≤ 1 := by
        rw [div_le_one htq]
        exact_mod_cast Nat.le_of_lt (by omega)
      have hq0 : (0 : ℚ) < 5 + ((i : ℚ) / (total : ℚ)) * 5 := by
        have : (0 : ℚ) ≤ (i : ℚ) / (total : ℚ) := by positivity
        linarith
      have hq100 : 5 + ((i : ℚ) / (total : ℚ)) * 5 ≤ 100 := by linarith
      have hPre2 : PreInv ((PStatus.running, 5 + ((i : ℚ) / (total : ℚ)) * 5) :: s.rev)
          (5 + ((i : ℚ) / (total : ℚ)) * 5) :=
        preInv_cons_run hPre hple hq0 hq100
      have hnext : 5 + ((i : ℚ) / (total : ℚ)) * 5 ≤ 5 + (((i + 1 : ℕ) : ℚ) / (total : ℚ)) * 5 := by
        have hdiv : (i : ℚ) / (total : ℚ) ≤ ((i + 1 : ℕ) : ℚ) / (total : ℚ) := by
          rw [div_le_div_iff_of_pos_right htq]
          push_cast
          linarith
        linarith
      rcases ih (i + 1)
        (updS { s with clock := s.clock + 1 } PStage.initialization PStatus.running
          (5 + ((i : ℚ) / (total : ℚ)) * 5)
          ("Copied " ++ toString (i + 1) ++ "/" ++ toString total ++ " images") none [])
        (5 + ((i : ℚ) / (total : ℚ)) * 5) (by omega) (by rw [updS_rev]; exact hPre2) hnext with
        hok | herr
      · exact Or.inl hok
      · exact Or.inr herr



theorem step_inv (cT : Option ℕ) (st : StepI) (s : RunS) (p : ℚ)
    (hLB : stepLB p st) (hPre : PreInv s.rev p) :
    (∃ s1, stepExec cT st s = Except.ok s1 ∧ PreInv s1.rev (stepOut p st)) ∨
    (∃ s1, stepExec cT st s = Except.error s1 ∧ FinTerm s1) := by
  cases st with
  | upd stg q msg =>
    obtain ⟨hpq, hq0, hq100⟩ := hLB
    left
    exact ⟨_, stepExec_upd cT stg q msg s,
      by rw [updS_rev]; exact preInv_cons_run hPre hpq hq0 hq100⟩
  | copy n =>
    have hple : p ≤ 5 + (((0 : ℕ) : ℚ) / (n : ℚ)) * 5 := by
      simpa using hLB
    rcases copy_inv cT n n 0 s p (by omega) hPre hple with ⟨s1, hrun, p', hp', hple10⟩ | ⟨s1, hrun, hfin⟩
    · left
      refine ⟨s1, by rw [stepExec_copy]; exact hrun, ?_⟩
      show PreInv s1.rev 10
      exact preInv_mono hp' hple10 (by norm_num)
    · right
      exact ⟨s1, by rw [stepExec_copy]; exact hrun, hfin⟩
  | cmd name m =>
    simp only [stepExec, run_cmd_step]
    rcases run_colmap_command cT (s.pending.headD ⟨0, 0, "", ""⟩) name m s.clock with ⟨c, out⟩
    cases out with
    | success => exact Or.inl ⟨_, rfl, hPre⟩
    | cancelledByUser => exact Or.inr ⟨_, rfl, finTerm_error_update (p := p) hPre _⟩
    | timedOut msg2 => exact Or.inr ⟨_, rfl, finTerm_error_update (p := p) hPre _⟩
    | failed msg2 => exact Or.inr ⟨_, rfl, finTerm_error_update (p := p) hPre _⟩
  | chk =>
    simp only [stepExec, check_cancel]
    cases hflag : flagAt cT (s.clock + 1) with
    | true =>
      right
      refine ⟨handle_cancellation { s with clock := s.clock + 1 }, by simp [hflag], ?_⟩
      exact finTerm_handle_cancellation (p := p) hPre
    | false =>
      left
      exact ⟨{ s with clock := s.clock + 1 }, by simp [hflag], hPre⟩

theorem runSteps_inv (cT : Option ℕ) :
    ∀ (steps : List StepI) (s : RunS) (p : ℚ), PreInv s.rev p → StepsMono p steps →
      (∃ s', runSteps cT steps s = Except.ok s' ∧ ∃ p', PreInv s'.rev p' ∧ p' ≤ 100) ∨
      (∃ s', runSteps cT steps s = Except.error s' ∧ FinTerm s') := by
  intro steps
  induction steps with
  | nil =>
    intro s p hPre hMono
    exact Or.inl ⟨s, rfl, p, hPre, hMono⟩
  | cons st rest ih =>
    intro s p hPre hMono
    obtain ⟨hLB, hMono'⟩ := hMono
    rcases step_inv cT st s p hLB hPre with ⟨s1, hok, hPre1⟩ | ⟨s1, herr, hfin⟩
    · rcases ih s1 (stepOut p st) hPre1 hMono' with ⟨s', h1, h2⟩ | ⟨s', h1, h2⟩
      · exact Or.inl ⟨s', by rw [runSteps_cons_ok hok]; exact h1, h2⟩
      · exact Or.inr ⟨s', by rw [runSteps_cons_ok hok]; exact h1, h2⟩
    · exact Or.inr ⟨s1, runSteps_cons_error herr, hfin⟩

theorem stepsMono_stepsFor (cfg : Config) (env : SessEnv) :
    StepsMono 5 (stepsFor cfg env) := by
  by_cases h1 : env.sparse_model_dir_exists <;>
    by_cases h2 : cfg.enable_dense_reconstruction <;>
      by_cases h3 : cfg.enable_meshing <;>
        simp [stepsFor, h1, h2, h3, StepsMono, stepLB, stepOut] <;>
          norm_num

theorem process_session_finterm (cfg : Config) (env : SessEnv) (sid : String) :
    FinTerm (process_session cfg env sid) := by
  have hinit : PreInv (init_run env sid).rev 5 := preInv_nil
  rcases runSteps_inv env.cancelTick (stepsFor cfg env) (init_run env sid) 5 hinit
    (stepsMono_stepsFor cfg env) with ⟨s', hrun, p', hPre, hp100⟩ | ⟨s', hrun, hfin⟩
  · have hps : process_session cfg env sid =
        updS { s' with archive := if env.archive_fails then none
            else create_model_archive sid cfg env.time_now (archive_cands cfg env) }
          PStage.completed PStatus.completed 100
          "COLMAP processing completed successfully" none (output_files_for cfg env) := by
      unfold process_session
      rw [hrun]
    rw [hps]
    obtain ⟨h1, h2, h3, _, _, _⟩ := hPre
    exact ⟨s'.rev, rfl, h1, h2, h3, Or.inr ⟨rfl, rfl⟩⟩
  · have hps : process_session cfg env sid = s' := by
      unfold process_session
      rw [hrun]
    rw [hps]
    exact hfin



/-- C4: over every configuration and environment, each progress update of a
worker run has a percent in [0,100]; the percents of the updates made with
Running status are non-decreasing in update order; and the trace ends with a
single terminal update, which carries percent 0 exactly when the terminal
status is Error or Cancelled (Completed carries 100), with no zero percent
anywhere before it. -/
theorem claim_C4_progress_monotone_reset (cfg : Config) (env : SessEnv) (sid : String) :
    (∀ u ∈ (process_session cfg env sid).trace, 0 ≤ u.2 ∧ u.2 ≤ 100) ∧
    List.Chain' (fun a b => a ≤ b)
      (((process_session cfg env sid).trace.filter
        (fun u => decide (u.1 = PStatus.running))).map Prod.snd) ∧
    ∃ t0, (process_session cfg env sid).trace =
        t0 ++ [((process_session cfg env sid).prog.status,
                (process_session cfg env sid).prog.progress_percent)] ∧
      (∀ u ∈ t0, u.1 = PStatus.running ∧ 0 < u.2) ∧
      ((((process_session cfg env sid).prog.status = PStatus.error ∨
         (process_session cfg env sid).prog.status = PStatus.cancelled) ∧
        (process_session cfg env sid).prog.progress_percent = 0) ∨
       ((process_session cfg env sid).prog.status = PStatus.completed ∧
        (process_session cfg env sid).prog.progress_percent = 100)) := by
  obtain ⟨r, hrev, hall, hbnd, hchain, hterm⟩ := process_session_finterm cfg env sid
  set s := process_session cfg env sid
  have htrace : s.trace = r.reverse ++ [(s.prog.status, s.prog.progress_percent)] := by
    rw [RunS.trace, hrev, List.reverse_cons]
  have hstatus_ne : s.prog.status ≠ PStatus.running := by
    rcases hterm with ⟨hst, _⟩ | ⟨hst, _⟩
    · rcases hst with h | h <;> rw [h] <;> intro hc <;> exact PStatus.noConfusion hc
    · rw [hst]; intro hc; exact PStatus.noConfusion hc
  refine ⟨?_, ?_, r.reverse, htrace, ?_, hterm⟩
  · intro u hu
    rw [htrace] at hu
    rcases List.mem_append.mp hu with h | h
    · have := hbnd u (List.mem_reverse.mp h)
      exact ⟨le_of_lt this.1, this.2⟩
    · simp at h
      subst h
      rcases hterm with ⟨_, hp⟩ | ⟨_, hp⟩
      · rw [hp]; norm_num
      · rw [hp]; norm_num
  · rw [htrace, List.filter_append]
    have h1 : List.filter (fun u => decide (u.1 = PStatus.running))
        [(s.prog.status, s.prog.progress_percent)] = [] := by
      simp [List.filter, hstatus_ne]
    have h2 : List.filter (fun u => decide (u.1 = PStatus.running)) r.reverse = r.reverse := by
      rw [List.filter_eq_self]
      intro u hu
      rw [decide_eq_true_eq]
      exact hall u (List.mem_reverse.mp hu)
    rw [h1, h2, List.append_nil]
    rw [List.map_reverse]
    rw [List.chain'_reverse]
    rw [List.chain'_map]
    exact hchain
  · intro u hu
    have hu2 := List.mem_reverse.mp hu
    exact ⟨hall u hu2, (hbnd u hu2).1⟩



/-- C5: converting an ascii raw-geometry file whose record counts match its
header and whose faces are triangles with 0-based indices in range yields
exactly `vertex_count` vertex lines and `face_count` face lines, all face
indices 1-based within `[1, vertex_count]`, and a bounding box with
`min ≤ max` and `center = (min+max)/2` on every axis. -/
theorem claim_C5_convert_wellformed (f : PlyFile)
    (hfmt : f.format = "ascii")
    (hvl : f.vertexRecs.length = f.vertex_count)
    (hfl : f.faceRecs.length = f.face_count)
    (hface : ∀ fr ∈ f.faceRecs, fr.1 = 3 ∧ fr.2.length = 3 ∧
      ∀ ix ∈ fr.2, 0 ≤ ix ∧ ix < (f.vertex_count : ℤ)) :
    (convert_ply_to_obj f).vertexLines.length = f.vertex_count ∧
    (convert_ply_to_obj f).faceLines.length = f.face_count ∧
    (∀ fl ∈ (convert_ply_to_obj f).faceLines,
      (1 ≤ fl.1 ∧ fl.1 ≤ (f.vertex_count : ℤ)) ∧
      (1 ≤ fl.2.1 ∧ fl.2.1 ≤ (f.vertex_count : ℤ)) ∧
      (1 ≤ fl.2.2 ∧ fl.2.2 ≤ (f.vertex_count : ℤ))) ∧
    ((convert_ply_to_obj f).boundingBox.bmin.1 ≤ (convert_ply_to_obj f).boundingBox.bmax.1 ∧
     (convert_ply_to_obj f).boundingBox.bmin.2.1 ≤ (convert_ply_to_obj f).boundingBox.bmax.2.1 ∧
     (convert_ply_to_obj f).boundingBox.bmin.2.2 ≤ (convert_ply_to_obj f).boundingBox.bmax.2.2) ∧
    ((convert_ply_to_obj f).boundingBox.center.1 =
      ((convert_ply_to_obj f).boundingBox.bmin.1 + (convert_ply_to_obj f).boundingBox.bmax.1) / 2 ∧
     (convert_ply_to_obj f).boundingBox.center.2.1 =
      ((convert_ply_to_obj f).boundingBox.bmin.2.1 + (convert_ply_to_obj f).boundingBox.bmax.2.1) / 2 ∧
     (convert_ply_to_obj f).boundingBox.center.2.2 =
      ((convert_ply_to_obj f).boundingBox.bmin.2.2 + (convert_ply_to_obj f).boundingBox.bmax.2.2) / 2) := by
  have hbb : (convert_ply_to_obj f).boundingBox =
      calculate_bounding_box (if f.format = "ascii" then
        (f.vertexRecs.take f.vertex_count).map (fun r => r.1) else []) := rfl
  refine ⟨?_, ?_, ?_, ?_, ?_⟩
  · simp [convert_ply_to_obj, hfmt, hvl]
  · simp only [convert_ply_to_obj, hfmt, if_pos, if_true]
    rw [filterMap_all_some_length]
    · rw [List.length_take, hfl]; omega
    · intro fr hfr
      obtain ⟨h3, hlen, _⟩ := hface fr (List.mem_of_mem_take hfr)
      rcases fr with ⟨cnt, l⟩
      simp only at h3 hlen
      subst h3
      rcases l with _ | ⟨a, _ | ⟨b, _ | ⟨c, tl⟩⟩⟩ <;> simp_all
  · intro fl hfl2
    simp only [convert_ply_to_obj] at hfl2
    rw [if_pos hfmt] at hfl2
    rcases List.mem_filterMap.mp hfl2 with ⟨fr, hmem, hsome⟩
    obtain ⟨h3, hlen, hbound⟩ := hface fr (List.mem_of_mem_take hmem)
    rcases fr with ⟨cnt, l⟩
    simp only at h3 hlen hbound
    subst h3
    rcases l with _ | ⟨a, _ | ⟨b, _ | ⟨c, tl⟩⟩⟩ <;> simp_all
    obtain ⟨ha, hb, hc⟩ := hbound
    rw [← hsome]
    dsimp only
    refine ⟨⟨by omega, by omega⟩, ⟨by omega, by omega⟩, ⟨by omega, by omega⟩⟩
  · rw [hbb]
    exact (calculate_bounding_box_sound _).1
  · rw [hbb]
    exact (calculate_bounding_box_sound _).2


/-! ### Claim theorems -/


/-- C2 counterexample: the cancellation token becomes signalled at tick 2,
which is read inside the feature-extraction command's poll loop while the
session is Running; `_run_colmap_command` raises `ColmapError`, the generic
handler of `_process_session` catches it, and the session terminates with
status Error (message `Processing cancelled by user`), not Cancelled —
refuting the claim's `never Error` as stated. -/
theorem claim_C2_counterexample :
    env_cancel_mid.cancelTick = some 2 ∧
    (process_session cfg_plain env_cancel_mid "sid").prog.status = PStatus.error ∧
    (process_session cfg_plain env_cancel_mid "sid").prog.status ≠ PStatus.cancelled ∧
    (process_session cfg_plain env_cancel_mid "sid").prog.error_message =
      some "Processing cancelled by user" := by
  have hst : (process_session cfg_plain env_cancel_mid "sid").prog.status = PStatus.error := by rfl
  refine ⟨rfl, hst, ?_, by rfl⟩
  rw [hst]
  intro h
  exact PStatus.noConfusion h

/-- C3: a stage invocation whose external process outlives its timeout
budget yields the `timedOut` outcome — produced by a code path distinct from
the nonzero-exit `failed` outcome — whose error detail embeds the last 1000
characters of the stripped stderr and stdout captures; and a session whose
matcher exceeds its 10-minute budget terminates with status Error, the
timeout text recorded in `error_message` and the configured duration
(`10 minutes`) contained in the session message. -/
theorem claim_C3_timeout :
    (∀ (cT : Option ℕ) (spec : CmdSpec) (cmdStr : String) (m clock : ℕ),
      flagAt cT (clock + (600 * m + 2)) = false → 600 * m + 2 ≤ spec.duration →
      (run_colmap_command cT spec cmdStr m clock).2 =
        RunOutcome.timedOut (timeout_error_msg m spec.stdoutS spec.stderrS cmdStr) ∧
      (∀ msg2, RunOutcome.timedOut (timeout_error_msg m spec.stdoutS spec.stderrS cmdStr) ≠
        RunOutcome.failed msg2) ∧
      strContainsSub (toString m ++ " minutes")
        (timeout_error_msg m spec.stdoutS spec.stderrS cmdStr) ∧
      (spec.stderrS ≠ "" → strContainsSub (lastN 1000 (pyStrip spec.stderrS))
        (timeout_error_msg m spec.stdoutS spec.stderrS cmdStr)) ∧
      (spec.stdoutS ≠ "" → strContainsSub (lastN 1000 (pyStrip spec.stdoutS))
        (timeout_error_msg m spec.stdoutS spec.stderrS cmdStr))) ∧
    (∀ (d : ℕ), 6002 ≤ d → ∀ (so se : String),
      (process_session cfg_plain (env_matcher_slow d so se) "sid").prog.status = PStatus.error ∧
      (process_session cfg_plain (env_matcher_slow d so se) "sid").prog.progress_percent = 0 ∧
      (process_session cfg_plain (env_matcher_slow d so se) "sid").prog.error_message =
        some (timeout_error_msg 10 so se "exhaustive_matcher") ∧
      strContainsSub (toString (10 : ℕ) ++ " minutes")
        (process_session cfg_plain (env_matcher_slow d so se) "sid").prog.message) :=
  ⟨fun cT spec cmdStr m clock hf hd => timeout_invoker_spec cT spec cmdStr m clock hf hd,
   fun d hd so se => timeout_session_spec d hd so se⟩

/-- Witness for C3 at a command that polls 6002 times against the
10-minute (6001-tick) budget. -/
theorem claim_C3_timeout_witness :
    ((run_colmap_command none ⟨6002, 0, "out", "err"⟩ "exhaustive_matcher" 10 0).2 =
      RunOutcome.timedOut (timeout_error_msg 10 "out" "err" "exhaustive_matcher") ∧
     (∀ msg2, RunOutcome.timedOut (timeout_error_msg 10 "out" "err" "exhaustive_matcher") ≠
       RunOutcome.failed msg2) ∧
     strContainsSub (toString (10 : ℕ) ++ " minutes")
       (timeout_error_msg 10 "out" "err" "exhaustive_matcher")) ∧
    ((process_session cfg_plain (env_matcher_slow 6002 "out" "err") "sid").prog.status =
      PStatus.error ∧
     strContainsSub (toString (10 : ℕ) ++ " minutes")
       (process_session cfg_plain (env_matcher_slow 6002 "out" "err") "sid").prog.message) := by
  have h1 := claim_C3_timeout.1 none ⟨6002, 0, "out", "err"⟩ "exhaustive_matcher" 10 0
    (by rfl) (by norm_num)
  have h2 := claim_C3_timeout.2 6002 (by norm_num) "out" "err"
  exact ⟨⟨h1.1, h1.2.1, h1.2.2.1⟩, h2.1, h2.2.2.2⟩

/-- Witness for C2 (amended) at `d1 = 0`, no further commands. -/
theorem claim_C2_amended_witness :
    (process_session cfg_plain (env_cancel_chk 0 []) "sid").prog.status = PStatus.cancelled ∧
    (process_session cfg_plain (env_cancel_chk 0 []) "sid").prog.progress_percent = 0 ∧
    (process_session cfg_plain (env_cancel_chk 0 []) "sid").commandsRun = ["feature_extractor"] ∧
    (process_session cfg_plain (env_cancel_chk 0 []) "sid").prog.end_time_set = true :=
  claim_C2_amended_checkpoint_cancel 0 (by norm_num) []

/-- Witness for C5 at the 4-vertex/2-face file of the spec scenario. -/
theorem claim_C5_witness :
    (convert_ply_to_obj c5_ply).vertexLines.length = c5_ply.vertex_count ∧
    (convert_ply_to_obj c5_ply).faceLines.length = c5_ply.face_count ∧
    (∀ fl ∈ (convert_ply_to_obj c5_ply).faceLines,
      (1 ≤ fl.1 ∧ fl.1 ≤ (c5_ply.vertex_count : ℤ)) ∧
      (1 ≤ fl.2.1 ∧ fl.2.1 ≤ (c5_ply.vertex_count : ℤ)) ∧
      (1 ≤ fl.2.2 ∧ fl.2.2 ≤ (c5_ply.vertex_count : ℤ))) ∧
    ((convert_ply_to_obj c5_ply).boundingBox.bmin.1 ≤ (convert_ply_to_obj c5_ply).boundingBox.bmax.1 ∧
     (convert_ply_to_obj c5_ply).boundingBox.bmin.2.1 ≤ (convert_ply_to_obj c5_ply).boundingBox.bmax.2.1 ∧
     (convert_ply_to_obj c5_ply).boundingBox.bmin.2.2 ≤ (convert_ply_to_obj c5_ply).boundingBox.bmax.2.2) := by
  have h := claim_C5_convert_wellformed c5_ply (by rfl) (by decide) (by decide) (by decide)
  exact ⟨h.1, h.2.1, h.2.2.1, h.2.2.2.1⟩

/-- Witness for C6 on an all-successful environment whose archive step
fails. -/
theorem claim_C6_witness :
    (process_session cfg_plain c6_env "sid").prog.status = PStatus.completed ∧
    (process_session cfg_plain c6_env "sid").prog.progress_percent = 100 ∧
    (process_session cfg_plain c6_env "sid").prog.output_files = output_files_for cfg_plain c6_env ∧
    (process_session cfg_plain c6_env "sid").archive = none := by
  have h := claim_C6_archive_failure_still_completed cfg_plain c6_env "sid"
    (by rfl) (by decide) (by rfl)
  exact ⟨h.1, h.2.1, h.2.2.1, h.2.2.2.2.1⟩

/-- Witness for C7 (amended): one missing and one present file produce an
archive with only the present file plus the metadata document. -/
theorem claim_C7_witness :
    create_model_archive "sess" cfg_plain "t0" [c7_missing, c7_present] =
      some ((([c7_missing, c7_present].filter (fun f => f.file_present && f.readable)).map
          (fun f => ArchEntry.file (f.ftype ++ "/" ++ f.path))) ++
        [ArchEntry.metadataDoc "sess" "t0" [c7_missing, c7_present] cfg_plain]) ∧
    count_metadata ((([c7_missing, c7_present].filter (fun f => f.file_present && f.readable)).map
          (fun f => ArchEntry.file (f.ftype ++ "/" ++ f.path))) ++
        [ArchEntry.metadataDoc "sess" "t0" [c7_missing, c7_present] cfg_plain]) = 1 :=
  claim_C7_amended_metadata_when_added "sess" "t0" cfg_plain [c7_missing, c7_present]
    ⟨c7_present, by decide, by decide, by decide⟩

/-- Witness for C8 on a registry with one live worker. -/
theorem claim_C8_witness :
    process_images c8_state "s1" true =
      (c8_state, Except.error ("Processing already in progress for session " ++ "s1")) :=
  claim_C8_duplicate_submission c8_state "s1" true (by decide)

/-- Witness for C9 on two existing readable images. -/
theorem claim_C9_witness :
    validate_image_set fs_all_good ["a.jpg", "b.jpg"] =
      (true, "Warning: Only 2 images provided. At least 3 images are recommended for robust 3D reconstruction.") :=
  (claim_C9_validate_image_set fs_all_good ["a.jpg", "b.jpg"]).2.2 (by decide)
    (fun p _ => ⟨rfl, rfl⟩)

/-- Witness for C10 on a zero-vertex ascii file. -/
theorem claim_C10_witness :
    (convert_ply_to_obj c10_ply).boundingBox = ⟨(0, 0, 0), (0, 0, 0), (0, 0, 0)⟩ :=
  (claim_C10_bbox_empty_total.2 c10_ply (by decide)).1


end Photogrammetry
